import Mathlib

set_option maxHeartbeats 1000000
set_option maxRecDepth 4000

/-!  Verification development for the FHEVM example-hub scaffolding scripts
(`scripts/create-fhevm-example.js`, `scripts/create-fhevm-category.js`,
`scripts/generate-docs.js`).  The scripts are shallowly embedded: the
filesystem is an association list from paths (component lists) to file
contents, process output is a pair of stdout/stderr line lists, and each
script entry point is a pure function from an initial filesystem to a
run result.  -/

namespace Scaffold

/-- Filesystem paths, modelled as lists of path components
(`path.join` is list append). -/
abbrev Path := List String

/-- Render a path the way joined paths appear inside template-literal log
messages (components separated by a slash). -/
def renderPath (p : Path) : String := String.intercalate "/" p

/-- `path.basename`: the last component of a relative path. -/
def basename (p : Path) : String := p.getLastD ""

/-- All nonempty prefixes of a path, shortest first.  `fs.mkdirSync` with
`recursive: true` creates every directory on this list. -/
def prefixesOf : Path → List Path
  | [] => []
  | x :: xs => [x] :: (prefixesOf xs).map (fun q => x :: q)

/-- `stripPrefixPath src p = some r` iff `p = src ++ r` with `r` nonempty,
i.e. `p` lies strictly under the directory `src`. -/
def stripPrefixPath : Path → Path → Option Path
  | [], [] => none
  | [], p => some p
  | _ :: _, [] => none
  | s :: ss, x :: xs => if s = x then stripPrefixPath ss xs else none

/-- Boolean path-prefix test. -/
def prefixB : Path → Path → Bool
  | [], _ => true
  | _ :: _, [] => false
  | x :: xs, y :: ys => x == y && prefixB xs ys

/-- The parsed form of a `package.json` manifest: the three identity fields
the scripts rewrite (`name`, `description`, `keywords`) plus opaque
pass-through fields.  `JSON.parse`/`JSON.stringify` round-tripping of the
document is abstracted into this record. -/
structure Manifest where
  name : String
  description : String
  keywords : List String
  rest : List (String × String)
deriving DecidableEq

/-- A file's content: either plain text or a parsed manifest document. -/
inductive Content where
  | text (s : String)
  | manifest (m : Manifest)
deriving DecidableEq

/-- A filesystem snapshot: files as an association list (the first match
for a path wins, so writes prepend) and a set of existing directories. -/
structure FS where
  files : List (Path × Content)
  dirs : List Path
deriving DecidableEq

/-- `fs.readFileSync`-style lookup of a file at a path. -/
def FS.lookupFile (fs : FS) (p : Path) : Option Content :=
  (fs.files.find? (fun pc => pc.1 == p)).map (fun pc => pc.2)

/-- `fs.existsSync`: true if a file or a directory exists at the path. -/
def FS.existsPath (fs : FS) (p : Path) : Bool :=
  (fs.lookupFile p).isSome || fs.dirs.contains p

/-- `fs.writeFileSync`: (over)write a file; the new entry shadows any
older entry at the same path. -/
def FS.writeFile (fs : FS) (p : Path) (c : Content) : FS :=
  { fs with files := (p, c) :: fs.files }

/-- `fs.mkdirSync(p, { recursive: true })`: create the directory and all
its ancestors. -/
def FS.mkdirRec (fs : FS) (p : Path) : FS :=
  { fs with dirs := prefixesOf p ++ fs.dirs }

/-- `cp -r src/* dst/`: every file and directory strictly under `src` is
replicated at the corresponding path under `dst`, shadowing existing
files there. -/
def FS.copyTree (fs : FS) (src dst : Path) : FS :=
  { files := (fs.files.filterMap
        (fun pc => (stripPrefixPath src pc.1).map (fun r => (dst ++ r, pc.2)))) ++ fs.files
    dirs := (fs.dirs.filterMap
        (fun d => (stripPrefixPath src d).map (fun r => dst ++ r))) ++ fs.dirs }

/-- `cp -r src tgt` where `tgt` does not yet exist: the directory `src`
itself is replicated as `tgt`. -/
def FS.copyDirAs (fs : FS) (src tgt : Path) : FS :=
  let fs2 := fs.copyTree src tgt
  { fs2 with dirs := tgt :: fs2.dirs }

/-- Whether the shell glob `p/*` matches anything: some file or directory
lies strictly under `p`.  When it does not, `cp -r p/* dst/` fails and
`execSync` throws. -/
def FS.hasEntriesUnder (fs : FS) (p : Path) : Bool :=
  fs.files.any (fun pc => (stripPrefixPath p pc.1).isSome) ||
  fs.dirs.any (fun d => (stripPrefixPath p d).isSome)

/-- `fs.copyFileSync src (dstDir/fname)`: fails if the source is not a
file or the destination directory does not exist. -/
def FS.copyFileSync (fs : FS) (src : Path) (dstDir : Path) (fname : String) :
    Except String FS :=
  if fs.dirs.contains dstDir then
    match fs.lookupFile src with
    | some c => .ok (fs.writeFile (dstDir ++ [fname]) c)
    | none => .error "ENOENT: no such file"
  else .error "ENOENT: no such directory"

/-- How a script invocation ended: normal completion, an explicit
`process.exit`, or an uncaught exception killing the process. -/
inductive Outcome where
  | ok
  | exited (code : Nat)
  | fatal (msg : String)
deriving DecidableEq

/-- The observable result of one script run: final filesystem, the lines
printed by `console.log` and `console.error`, and how the process ended. -/
structure RunResult where
  fs : FS
  stdout : List String
  stderr : List String
  outcome : Outcome
deriving DecidableEq

/-- Exact-match lookup in a static configuration table
(JS object-key access `TABLE[name]`). -/
def mapLookup {α : Type} (l : List (String × α)) (k : String) : Option α :=
  (l.find? (fun e => e.1 == k)).map (fun e => e.2)

/-- Substring test on character lists (JS `String.prototype.includes`). -/
def hasInfix (pat : List Char) : List Char → Bool
  | [] => pat.isEmpty
  | c :: rest => List.isPrefixOf pat (c :: rest) || hasInfix pat rest

/-- JS `s.includes(pat)`. -/
def containsSubstr (s pat : String) : Bool := hasInfix pat.data s.data

/-- JS `s.charAt(0).toUpperCase() + s.slice(1)`. -/
def capitalizeFirst (s : String) : String :=
  match s.data with
  | [] => ""
  | c :: cs => String.mk (Char.toUpper c :: cs)

/-- JS `s.toLowerCase()` (ASCII, which is all the catalog uses). -/
def lowerAscii (s : String) : String := String.mk (s.data.map Char.toLower)

/-! ## The static catalogs (`EXAMPLES_MAP`, `CATEGORIES`, `DOCS_CONFIG`)
from the three scripts.  Relative path strings such as
`'basic/FHECounter.sol'` are stored pre-split into components. -/

/-- One entry of `EXAMPLES_MAP` in `create-fhevm-example.js`. -/
structure ExampleConfig where
  contract : List String
  test : List String
  description : String
  category : String
deriving DecidableEq

/-- `EXAMPLES_MAP` from `create-fhevm-example.js`, in source order. -/
def EXAMPLES_MAP : List (String × ExampleConfig) :=
  [("blind-auction",
    { contract := ["auctions", "BlindAuction.sol"]
      test := ["auctions", "BlindAuction.ts"]
      description := "Sealed-bid auction with encrypted bids"
      category := "auctions" }),
   ("fhe-counter",
    { contract := ["basic", "FHECounter.sol"]
      test := ["basic", "FHECounter.ts"]
      description := "Simple encrypted counter demonstrating FHE basics"
      category := "basic" })]

/-- One entry of `CATEGORIES` in `create-fhevm-category.js`. -/
structure CategoryConfig where
  description : String
  examples : List String
  contracts : List (List String)
  tests : List (List String)
deriving DecidableEq

/-- `CATEGORIES` from `create-fhevm-category.js`, in source order. -/
def CATEGORIES : List (String × CategoryConfig) :=
  [("auctions",
    { description := "Confidential auction mechanisms using FHEVM"
      examples := ["blind-auction"]
      contracts := [["auctions", "BlindAuction.sol"]]
      tests := [["auctions", "BlindAuction.ts"]] }),
   ("basic",
    { description := "Fundamental FHE operations and patterns"
      examples := ["fhe-counter", "encrypt-single-value"]
      contracts := [["basic", "FHECounter.sol"]]
      tests := [["basic", "FHECounter.ts"]] })]

/-- One entry of `DOCS_CONFIG` in `generate-docs.js`. -/
structure DocConfig where
  title : String
  description : String
  category : String
  concepts : List String
deriving DecidableEq

/-- `DOCS_CONFIG` from `generate-docs.js`, in source order. -/
def DOCS_CONFIG : List (String × DocConfig) :=
  [("blind-auction",
    { title := "Blind Auction"
      description := "Sealed-bid auction with encrypted bids using FHEVM"
      category := "Advanced Examples"
      concepts := ["Encrypted bidding", "Access control", "Public decryption",
                   "Auction mechanics"] }),
   ("fhe-counter",
    { title := "FHE Counter"
      description := "Simple encrypted counter demonstrating basic FHE operations"
      category := "Basic Examples"
      concepts := ["Encrypted state", "FHE arithmetic", "Permission management"] })]

/-- `descriptions` table inside `getExampleDescription` in
`create-fhevm-category.js`. -/
def exampleDescriptions : List (String × String) :=
  [("blind-auction", "Sealed-bid auction with encrypted bids"),
   ("fhe-counter", "Simple encrypted counter demonstrating FHE basics"),
   ("encrypt-single-value", "Basic FHE encryption patterns")]

/-- `getExampleDescription` from `create-fhevm-category.js`:
table lookup with the literal fallback. -/
def getExampleDescription (exampleName : String) : String :=
  (mapLookup exampleDescriptions exampleName).getD "FHEVM example"

/-- `contractMap` inside `getContractPath` in `generate-docs.js`. -/
def docContractMap : List (String × List String) :=
  [("blind-auction", ["contracts", "auctions", "BlindAuction.sol"]),
   ("fhe-counter", ["contracts", "basic", "FHECounter.sol"])]

/-- `testMap` inside `getTestPath` in `generate-docs.js`. -/
def docTestMap : List (String × List String) :=
  [("blind-auction", ["test", "auctions", "BlindAuction.ts"]),
   ("fhe-counter", ["test", "basic", "FHECounter.ts"])]

/-- `getContractPath`: `path.join(__dirname, '..', contractMap[name] || '')`.
`root` stands for `path.join(__dirname, '..')`, the repository root. -/
def getContractPath (root : Path) (exampleName : String) : Path :=
  root ++ (mapLookup docContractMap exampleName).getD []

/-- `getTestPath`, analogous to `getContractPath`. -/
def getTestPath (root : Path) (exampleName : String) : Path :=
  root ++ (mapLookup docTestMap exampleName).getD []

/-! ## Pure document renderers, transcribed from the template literals. -/

/-- `generateReadme` from `create-fhevm-example.js`. -/
def generateReadme (exampleName : String) (config : ExampleConfig) : String :=
  "# " ++ capitalizeFirst exampleName ++ " - FHEVM Example\n\n" ++
  config.description ++ "\n\n## Overview\n\nThis example demonstrates " ++
  lowerAscii config.description ++
  " using FHEVM (Fully Homomorphic Encryption Virtual Machine) by Zama.\n\n" ++
  "## Quick Start\n\n```bash\n# Install dependencies\nnpm install\n\n" ++
  "# Compile contracts\nnpm run compile\n\n# Run tests\nnpm run test\n\n" ++
  "# Deploy (local)\nnpm run deploy:local\n```\n\n" ++
  "## Key Concepts\n\nThis example showcases:\n" ++
  "- Encrypted data handling with FHEVM\n" ++
  "- Permission management with FHE.allow() and FHE.allowThis()\n- " ++
  (if config.category = "auctions" then "Confidential bidding mechanisms"
   else "Basic FHE operations") ++ "\n\n" ++
  "## Files\n\n- `contracts/" ++ basename config.contract ++
  "` - Main contract implementation\n- `test/" ++ basename config.test ++
  "` - Comprehensive test suite\n- `deploy/` - Deployment scripts\n\n" ++
  "## Resources\n\n- [FHEVM Documentation](https://docs.zama.ai/fhevm)\n" ++
  "- [Zama Protocol Examples](https://docs.zama.org/protocol/examples)\n" ++
  "- [GitHub Repository](https://github.com/zama-ai/fhevm)\n\n" ++
  "## License\n\nBSD-3-Clause-Clear\n"

/-- `generateCategoryReadme` from `create-fhevm-category.js`. -/
def generateCategoryReadme (categoryName : String) (config : CategoryConfig) : String :=
  "# " ++ capitalizeFirst categoryName ++ " Examples - FHEVM\n\n" ++
  config.description ++ "\n\n## Overview\n\n" ++
  "This project contains multiple FHEVM examples demonstrating " ++
  lowerAscii config.description ++ ".\n\n## Examples Included\n\n" ++
  String.intercalate "\n"
    (config.examples.map
      (fun e => "- **" ++ e ++ "** - " ++ getExampleDescription e)) ++
  "\n\n## Quick Start\n\n```bash\n# Install dependencies\n" ++
  "npm install --legacy-peer-deps\n\n# Compile all contracts\nnpm run compile\n\n" ++
  "# Run all tests\nnpm run test\n\n# Deploy all contracts (local)\n" ++
  "npm run deploy:local\n```\n\n## Project Structure\n\n```\n" ++
  categoryName ++ "-examples/\n├── contracts/\n" ++
  String.intercalate "\n"
    (config.contracts.map (fun c => "│   ├── " ++ basename c)) ++
  "\n├── test/\n" ++
  String.intercalate "\n"
    (config.tests.map (fun t => "│   ├── " ++ basename t)) ++
  "\n│   └── utils/\n│       └── fhevm.ts\n├── deploy/\n└── README.md\n```\n\n" ++
  "## Key Concepts\n\nThis category demonstrates:\n" ++
  "- Encrypted data handling with FHEVM\n" ++
  "- Permission management with FHE.allow() and FHE.allowThis()\n- " ++
  (if categoryName = "auctions" then "Confidential bidding and auction mechanisms"
   else "Basic FHE operations and patterns") ++
  "\n- Public decryption patterns\n- Common pitfalls and best practices\n\n" ++
  "## Testing\n\nEach example includes comprehensive tests showing:\n" ++
  "- ✅ Correct usage patterns\n- ❌ Common mistakes and edge cases\n" ++
  "- 🔧 Permission handling\n- 📊 Gas usage patterns\n\n" ++
  "## Resources\n\n- [FHEVM Documentation](https://docs.zama.ai/fhevm)\n" ++
  "- [Zama Protocol Examples](https://docs.zama.org/protocol/examples)\n" ++
  "- [GitHub Repository](https://github.com/zama-ai/fhevm)\n\n" ++
  "## License\n\nBSD-3-Clause-Clear\n"

/-- The fixed document shape produced by `generateMarkdownDoc` in
`generate-docs.js`, as a function of the two embedded source listings. -/
def mdRender (config : DocConfig) (contractCode testCode : String) : String :=
  "# " ++ config.title ++ "\n\n" ++ config.description ++
  "\n\n## Overview\n\nThis example demonstrates " ++
  lowerAscii config.description ++ ".\n\n## Key Concepts\n\n" ++
  String.intercalate "\n"
    (config.concepts.map (fun concept => "- **" ++ concept ++ "**")) ++
  "\n\n## Contract Implementation\n\n```solidity\n" ++ contractCode ++
  "\n```\n\n## Test Suite\n\n" ++
  "The test suite demonstrates both correct usage and common pitfalls:\n\n" ++
  "```typescript\n" ++ testCode ++
  "\n```\n\n## Usage\n\n### Deploy the Contract\n\n```bash\n" ++
  "npm run deploy:local\n```\n\n### Run Tests\n\n```bash\nnpm run test\n```\n\n" ++
  "## Important Patterns\n\n### ✅ Correct Usage\n\n" ++
  "- Always call `FHE.allowThis()` for contract permissions\n" ++
  "- Use `FHE.allow()` for user permissions\n" ++
  "- Match encryption signer with transaction sender\n\n" ++
  "### ❌ Common Mistakes\n\n- Forgetting `allowThis()` permissions\n" ++
  "- Mismatching encryption context\n- Using deprecated API functions\n\n" ++
  "## Resources\n\n- [FHEVM Documentation](https://docs.zama.ai/fhevm)\n" ++
  "- [Zama Protocol Examples](https://docs.zama.org/protocol/examples)\n" ++
  "- [GitHub Repository](https://github.com/zama-ai/fhevm)\n"

/-- Text of a file read with `readFileSync(..., 'utf8')`.  A manifest file
would read back as its serialized JSON text, which this embedding does not
inspect; the artifact files the doc generator reads are plain text. -/
def readTextD : Option Content → String
  | some (.text s) => s
  | some (.manifest _) => ""
  | none => ""

/-- `generateMarkdownDoc` from `generate-docs.js`: read each artifact if it
exists (else embed the empty string) and render the fixed shape. -/
def generateMarkdownDoc (root : Path) (fs : FS) (exampleName : String)
    (config : DocConfig) : String :=
  let contractPath := getContractPath root exampleName
  let testPath := getTestPath root exampleName
  let contractCode :=
    if fs.existsPath contractPath then readTextD (fs.lookupFile contractPath) else ""
  let testCode :=
    if fs.existsPath testPath then readTextD (fs.lookupFile testPath) else ""
  mdRender config contractCode testCode

/-- The skeleton `updateSummary` writes when no `SUMMARY.md` exists yet. -/
def summarySkeleton : String :=
  "# Summary\n\n## Introduction\n\n* [Overview](README.md)\n\n## Examples\n\n"

/-- The index entry line `updateSummary` appends for one example. -/
def entryLineFor (exampleName : String) (config : DocConfig) : String :=
  "* [" ++ config.title ++ "](" ++ exampleName ++ ".md)"

/-! ## The script entry points.  Throughout, `root` stands for
`path.join(__dirname, '..')`, the repository root directory relative to
which every source path in the scripts is resolved. -/

/-- `updatePackageJson` from `create-fhevm-example.js`: parse the copied
manifest, overwrite `name`, `description` and `keywords`, write it back.
A missing or unparseable manifest throws (fatal). -/
def updatePackageJson (fs : FS) (outputDir : Path) (exampleName : String)
    (config : ExampleConfig) : Except String FS :=
  let packageJsonPath := outputDir ++ ["package.json"]
  match fs.lookupFile packageJsonPath with
  | some (.manifest packageJson) =>
      .ok (fs.writeFile packageJsonPath (.manifest
        { packageJson with
            name := "fhevm-" ++ exampleName
            description := config.description
            keywords := ["fhevm", "zama", "fhe", "privacy", "blockchain",
                         config.category] }))
  | some (.text _) => .error "JSON.parse: unexpected token"
  | none => .error "ENOENT: no such file, package.json"

/-- `updateCategoryPackageJson` from `create-fhevm-category.js`. -/
def updateCategoryPackageJson (fs : FS) (outputDir : Path) (categoryName : String)
    (config : CategoryConfig) : Except String FS :=
  let packageJsonPath := outputDir ++ ["package.json"]
  match fs.lookupFile packageJsonPath with
  | some (.manifest packageJson) =>
      .ok (fs.writeFile packageJsonPath (.manifest
        { packageJson with
            name := "fhevm-" ++ categoryName ++ "-examples"
            description := config.description
            keywords := ["fhevm", "zama", "fhe", "privacy", "blockchain",
                         categoryName, "examples"] }))
  | some (.text _) => .error "JSON.parse: unexpected token"
  | none => .error "ENOENT: no such file, package.json"

/-- The guarded single-artifact copy both scripts use:
`if (fs.existsSync(src)) { console.log(logLine); fs.copyFileSync(src, dst); }`.
Skipping a missing source is silent; a failing copy throws. -/
def copyIfExists (fs : FS) (src dstDir : Path) (fname : String)
    (logLine : String) : Except String (FS × List String) :=
  if fs.existsPath src then
    match fs.copyFileSync src dstDir fname with
    | .ok fs2 => .ok (fs2, [logLine])
    | .error e => .error e
  else .ok (fs, [])

/-- `createExample` from `create-fhevm-example.js`, step for step:
unknown-name early exit, output-dir creation, base-template copy
(fatal if the glob matches nothing), guarded contract and test copies,
README generation, manifest rewrite, final log lines. -/
def createExample (root : Path) (fs0 : FS) (exampleName : String)
    (outputDir : Path) : RunResult :=
  match mapLookup EXAMPLES_MAP exampleName with
  | none =>
      { fs := fs0
        stdout := ["Available examples: " ++
          String.intercalate ", " (EXAMPLES_MAP.map (fun e => e.1))]
        stderr := ["❌ Example \x27" ++ exampleName ++ "\x27 not found"]
        outcome := .exited 1 }
  | some config =>
      let templateDir := root ++ ["fhevm-hardhat-template"]
      let log0 := ["🚀 Creating " ++ exampleName ++ " example in " ++
        renderPath outputDir]
      let fs1 := if fs0.existsPath outputDir then fs0 else fs0.mkdirRec outputDir
      let log1 := log0 ++ ["📁 Copying base template..."]
      if fs1.hasEntriesUnder templateDir then
        let fs2 := fs1.copyTree templateDir outputDir
        match copyIfExists fs2 (root ++ ["contracts"] ++ config.contract)
            (outputDir ++ ["contracts"]) (basename config.contract)
            ("📄 Copying contract: " ++ renderPath config.contract) with
        | .error e => { fs := fs2, stdout := log1, stderr := [], outcome := .fatal e }
        | .ok (fs3, log2) =>
          match copyIfExists fs3 (root ++ ["test"] ++ config.test)
              (outputDir ++ ["test"]) (basename config.test)
              ("🧪 Copying test: " ++ renderPath config.test) with
          | .error e =>
              { fs := fs3, stdout := log1 ++ log2, stderr := [], outcome := .fatal e }
          | .ok (fs4, log3) =>
            let readme := generateReadme exampleName config
            if outputDir ∈ fs4.dirs then
              let fs5 := fs4.writeFile (outputDir ++ ["README.md"]) (.text readme)
              match updatePackageJson fs5 outputDir exampleName config with
              | .error e =>
                  { fs := fs5, stdout := log1 ++ log2 ++ log3, stderr := []
                    outcome := .fatal e }
              | .ok fs6 =>
                  { fs := fs6
                    stdout := log1 ++ log2 ++ log3 ++
                      ["✅ Example \x27" ++ exampleName ++
                         "\x27 created successfully!",
                       "\nNext steps:", "  cd " ++ renderPath outputDir,
                       "  npm install", "  npm run compile", "  npm run test"]
                    stderr := []
                    outcome := .ok }
            else
              { fs := fs4, stdout := log1 ++ log2 ++ log3, stderr := []
                outcome := .fatal "ENOENT: no such directory" }
      else { fs := fs1, stdout := log1, stderr := [], outcome := .fatal "cp: no match" }

/-- Running state of the `forEach` artifact-copy loops in
`create-fhevm-category.js`; `err` records a thrown exception, after which
the remaining iterations are not executed. -/
structure CpState where
  fs : FS
  log : List String
  err : Option String
deriving DecidableEq

/-- One iteration of a category artifact-copy loop (`kind` is
`"contracts"` or `"test"`). -/
def copyCatArtifact (root : Path) (kind : String) (outputDir : Path)
    (st : CpState) (rel : List String) : CpState :=
  match st.err with
  | some _ => st
  | none =>
    let src := root ++ [kind] ++ rel
    if st.fs.existsPath src then
      match st.fs.copyFileSync src (outputDir ++ [kind]) (basename rel) with
      | .ok fs2 => { fs := fs2, log := st.log ++ ["  - " ++ renderPath rel], err := none }
      | .error e => { st with err := some e }
    else st

/-- The full `config.contracts.forEach` / `config.tests.forEach` loop. -/
def copyCatArtifacts (root : Path) (kind : String) (outputDir : Path)
    (st : CpState) (rels : List (List String)) : CpState :=
  rels.foldl (copyCatArtifact root kind outputDir) st

/-- `createCategory` from `create-fhevm-category.js`.  The `cp -r` of the
`test/utils` helper directory copies it as `outputDir/test/utils` when
that path is still free and into it (as `.../utils/utils`) when the
template copy already created it. -/
def createCategory (root : Path) (fs0 : FS) (categoryName : String)
    (outputDir : Path) : RunResult :=
  match mapLookup CATEGORIES categoryName with
  | none =>
      { fs := fs0
        stdout := ["Available categories: " ++
          String.intercalate ", " (CATEGORIES.map (fun e => e.1))]
        stderr := ["❌ Category \x27" ++ categoryName ++ "\x27 not found"]
        outcome := .exited 1 }
  | some config =>
      let templateDir := root ++ ["fhevm-hardhat-template"]
      let log0 := ["🚀 Creating " ++ categoryName ++ " category project in " ++
        renderPath outputDir]
      let fs1 := if fs0.existsPath outputDir then fs0 else fs0.mkdirRec outputDir
      let log1 := log0 ++ ["📁 Copying base template..."]
      if fs1.hasEntriesUnder templateDir then
        let fs2 := fs1.copyTree templateDir outputDir
        let log2 := log1 ++
          ["📄 Copying " ++ toString config.contracts.length ++ " contracts..."]
        let stC := copyCatArtifacts root "contracts" outputDir
          { fs := fs2, log := log2, err := none } config.contracts
        match stC.err with
        | some e => { fs := stC.fs, stdout := stC.log, stderr := [], outcome := .fatal e }
        | none =>
          let log3 := stC.log ++
            ["🧪 Copying " ++ toString config.tests.length ++ " tests..."]
          let stT := copyCatArtifacts root "test" outputDir
            { fs := stC.fs, log := log3, err := none } config.tests
          match stT.err with
          | some e =>
              { fs := stT.fs, stdout := stT.log, stderr := [], outcome := .fatal e }
          | none =>
            let utilsSrc := root ++ ["test", "utils"]
            let utilsDest := outputDir ++ ["test", "utils"]
            let fs3 :=
              if stT.fs.existsPath utilsSrc then
                if stT.fs.existsPath utilsDest then
                  stT.fs.copyDirAs utilsSrc (utilsDest ++ ["utils"])
                else stT.fs.copyDirAs utilsSrc utilsDest
              else stT.fs
            let readme := generateCategoryReadme categoryName config
            if outputDir ∈ fs3.dirs then
              let fs4 := fs3.writeFile (outputDir ++ ["README.md"]) (.text readme)
              match updateCategoryPackageJson fs4 outputDir categoryName config with
              | .error e =>
                  { fs := fs4, stdout := stT.log, stderr := [], outcome := .fatal e }
              | .ok fs5 =>
                  { fs := fs5
                    stdout := stT.log ++
                      ["✅ Category \x27" ++ categoryName ++
                         "\x27 project created successfully!",
                       "\nNext steps:", "  cd " ++ renderPath outputDir,
                       "  npm install --legacy-peer-deps", "  npm run compile",
                       "  npm run test"]
                    stderr := []
                    outcome := .ok }
            else
              { fs := fs3, stdout := stT.log, stderr := []
                outcome := .fatal "ENOENT: no such directory" }
      else { fs := fs1, stdout := log1, stderr := [], outcome := .fatal "cp: no match" }

/-- `updateSummary` from `generate-docs.js`: read the index document (or
start from the skeleton), append the entry line only if it is not already
an exact substring, write the document back.  Reading a directory as a
file throws. -/
def updateSummary (fs : FS) (outputDir : Path) (exampleName : String)
    (config : DocConfig) : Except String (FS × List String) :=
  let summaryPath := outputDir ++ ["SUMMARY.md"]
  let readStep : Except String String :=
    if fs.existsPath summaryPath then
      match fs.lookupFile summaryPath with
      | some (.text s) => .ok s
      | some (.manifest _) => .ok ""
      | none => .error "EISDIR: illegal operation on a directory"
    else .ok summarySkeleton
  match readStep with
  | .error e => .error e
  | .ok summaryContent =>
    let entry := entryLineFor exampleName config
    let content :=
      if containsSubstr summaryContent entry then summaryContent
      else summaryContent ++ entry ++ "\n"
    if outputDir ∈ fs.dirs then
      .ok (fs.writeFile (outputDir ++ ["SUMMARY.md"]) (.text content),
           ["📝 Updated SUMMARY.md"])
    else .error "ENOENT: no such directory"

/-- `generateDocs` from `generate-docs.js`: unknown-name early exit with
code 1 before any filesystem mutation, otherwise create the output
directory, write the rendered document, and update `SUMMARY.md`. -/
def generateDocs (root : Path) (fs0 : FS) (exampleName : String)
    (outputDir : Path) : RunResult :=
  match mapLookup DOCS_CONFIG exampleName with
  | none =>
      { fs := fs0
        stdout := []
        stderr := ["❌ Documentation config for \x27" ++ exampleName ++
          "\x27 not found"]
        outcome := .exited 1 }
  | some config =>
      let log0 := ["📚 Generating documentation for " ++ exampleName]
      let fs1 := if fs0.existsPath outputDir then fs0 else fs0.mkdirRec outputDir
      let docContent := generateMarkdownDoc root fs1 exampleName config
      let docPath := outputDir ++ [exampleName ++ ".md"]
      if outputDir ∈ fs1.dirs then
        let fs2 := fs1.writeFile docPath (.text docContent)
        let log1 := log0 ++ ["✅ Documentation generated: " ++ renderPath docPath]
        match updateSummary fs2 outputDir exampleName config with
        | .ok (fs3, log2) =>
            { fs := fs3, stdout := log1 ++ log2, stderr := [], outcome := .ok }
        | .error e => { fs := fs2, stdout := log1, stderr := [], outcome := .fatal e }
      else
        { fs := fs1, stdout := log0, stderr := []
          outcome := .fatal "ENOENT: no such directory" }

/-! ## Lemmas about paths. -/

theorem stripPrefixPath_eq_some {src p r : Path} :
    stripPrefixPath src p = some r ↔ p = src ++ r ∧ r ≠ [] := by
  induction src generalizing p with
  | nil =>
    cases p with
    | nil => simp [stripPrefixPath]
    | cons x xs =>
      simp only [stripPrefixPath, List.nil_append, Option.some.injEq]
      constructor
      · rintro rfl; exact ⟨rfl, by simp⟩
      · rintro ⟨rfl, _⟩; rfl
  | cons s ss ih =>
    cases p with
    | nil => simp [stripPrefixPath]
    | cons x xs =>
      simp only [stripPrefixPath, List.cons_append, List.cons.injEq]
      by_cases h : s = x
      · subst h; simp [ih]
      · rw [if_neg h]
        constructor
        · intro hc; simp at hc
        · rintro ⟨⟨rfl, -⟩, -⟩; exact (h rfl).elim

theorem stripPrefixPath_append_self {src r : Path} (hr : r ≠ []) :
    stripPrefixPath src (src ++ r) = some r :=
  stripPrefixPath_eq_some.mpr ⟨rfl, hr⟩

theorem prefixB_iff {p q : Path} : prefixB p q = true ↔ p <+: q := by
  induction p generalizing q with
  | nil => simp [prefixB]
  | cons x xs ih =>
    cases q with
    | nil => simp [prefixB]
    | cons y ys => simp [prefixB, ih, List.cons_prefix_cons, beq_iff_eq, and_comm]

theorem append_ne_append {p : Path} {xs ys : List String} (h : xs ≠ ys) :
    p ++ xs ≠ p ++ ys :=
  fun hc => h (List.append_cancel_left hc)

theorem strip_append_none {out : Path} {xs ys : List String}
    (h : ∀ r, r ≠ [] → ys ≠ xs ++ r) :
    stripPrefixPath (out ++ xs) (out ++ ys) = none := by
  cases hs : stripPrefixPath (out ++ xs) (out ++ ys) with
  | none => rfl
  | some r =>
    obtain ⟨he, hr⟩ := stripPrefixPath_eq_some.mp hs
    rw [List.append_assoc] at he
    exact absurd (List.append_cancel_left he) (h r hr)

theorem mem_prefixesOf_self {p : Path} (h : p ≠ []) : p ∈ prefixesOf p := by
  induction p with
  | nil => exact absurd rfl h
  | cons x xs ih =>
    cases xs with
    | nil => simp [prefixesOf]
    | cons y ys =>
      have hm : (y :: ys) ∈ prefixesOf (y :: ys) := ih (by simp)
      exact List.mem_cons_of_mem _ (List.mem_map_of_mem (fun q => x :: q) hm)

theorem of_mem_prefixesOf {p q : Path} (h : q ∈ prefixesOf p) :
    q ≠ [] ∧ q <+: p := by
  induction p generalizing q with
  | nil => simp [prefixesOf] at h
  | cons x xs ih =>
    simp only [prefixesOf, List.mem_cons, List.mem_map] at h
    rcases h with rfl | ⟨a, ha, rfl⟩
    · exact ⟨by simp, ⟨xs, rfl⟩⟩
    · obtain ⟨h1, h2⟩ := ih ha
      exact ⟨by simp, List.cons_prefix_cons.mpr ⟨rfl, h2⟩⟩

/-- Under mutual non-prefixness of `out` and `root`, no path under `root`
lies under `out`. -/
theorem strip_out_none_of_sep {out root p : Path}
    (h1 : prefixB out root = false) (h2 : prefixB root out = false)
    (hp : root <+: p) : stripPrefixPath out p = none := by
  cases hs : stripPrefixPath out p with
  | none => rfl
  | some r =>
    obtain ⟨rfl, hr⟩ := stripPrefixPath_eq_some.mp hs
    rcases List.prefix_or_prefix_of_prefix ⟨r, rfl⟩ hp with h | h
    · rw [← prefixB_iff] at h; rw [h] at h1; exact absurd h1 (by simp)
    · rw [← prefixB_iff] at h; rw [h] at h2; exact absurd h2 (by simp)

/-! ## Lemmas about the filesystem operations. -/

theorem FS.lookupFile_writeFile_self (fs : FS) (p : Path) (c : Content) :
    (fs.writeFile p c).lookupFile p = some c := by
  simp [FS.writeFile, FS.lookupFile]

theorem FS.lookupFile_writeFile_ne (fs : FS) {p q : Path} (c : Content)
    (h : q ≠ p) : (fs.writeFile p c).lookupFile q = fs.lookupFile q := by
  simp only [FS.writeFile, FS.lookupFile, List.find?]
  have : (p == q) = false := by simp [beq_iff_eq]; exact fun hc => h hc.symm
  simp [this]

theorem FS.dirs_writeFile (fs : FS) (p : Path) (c : Content) :
    (fs.writeFile p c).dirs = fs.dirs := rfl

theorem FS.lookupFile_mkdirRec (fs : FS) (p q : Path) :
    (fs.mkdirRec p).lookupFile q = fs.lookupFile q := rfl

theorem FS.files_mkdirRec (fs : FS) (p : Path) :
    (fs.mkdirRec p).files = fs.files := rfl

theorem FS.mem_dirs_mkdirRec_self (fs : FS) {p : Path} (h : p ≠ []) :
    p ∈ (fs.mkdirRec p).dirs :=
  List.mem_append.mpr (Or.inl (mem_prefixesOf_self h))

theorem FS.mem_dirs_mkdirRec_of_mem (fs : FS) {p d : Path} (h : d ∈ fs.dirs) :
    d ∈ (fs.mkdirRec p).dirs :=
  List.mem_append.mpr (Or.inr h)

theorem FS.existsPath_of_lookup {fs : FS} {p : Path} {c : Content}
    (h : fs.lookupFile p = some c) : fs.existsPath p = true := by
  simp [FS.existsPath, h]

theorem FS.lookupFile_isSome_iff {fs : FS} {q : Path} :
    (fs.lookupFile q).isSome = true ↔ ∃ c, (q, c) ∈ fs.files := by
  simp only [FS.lookupFile]
  constructor
  · intro h
    cases hf : fs.files.find? (fun pc => pc.1 == q) with
    | none => rw [hf] at h; simp at h
    | some a =>
      have := List.find?_some hf
      have hm := List.mem_of_find?_eq_some hf
      rw [beq_iff_eq] at this
      exact ⟨a.2, by rw [← this]; exact hm⟩
  · rintro ⟨c, hc⟩
    have : (fs.files.find? (fun pc => pc.1 == q)).isSome = true :=
      List.find?_isSome.mpr ⟨(q, c), hc, by simp⟩
    cases hf : fs.files.find? (fun pc => pc.1 == q) with
    | none => rw [hf] at this; simp at this
    | some a => simp [hf]

theorem FS.lookup_isSome_of_suffix {fs fs' : FS} (h : fs.files <:+ fs'.files)
    {q : Path} (hs : (fs.lookupFile q).isSome = true) :
    (fs'.lookupFile q).isSome = true := by
  obtain ⟨c, hc⟩ := FS.lookupFile_isSome_iff.mp hs
  exact FS.lookupFile_isSome_iff.mpr ⟨c, h.subset hc⟩

theorem FS.hasEntriesUnder_of_lookup {fs : FS} {p r : Path} {c : Content}
    (h : fs.lookupFile (p ++ r) = some c) (hr : r ≠ []) :
    fs.hasEntriesUnder p = true := by
  have hs : (fs.lookupFile (p ++ r)).isSome = true := by simp [h]
  obtain ⟨c', hc⟩ := FS.lookupFile_isSome_iff.mp hs
  simp only [FS.hasEntriesUnder, Bool.or_eq_true, List.any_eq_true]
  exact Or.inl ⟨(p ++ r, c'), hc, by simp [stripPrefixPath_append_self hr]⟩

theorem contains_iff_mem {l : List Path} {p : Path} :
    l.contains p = true ↔ p ∈ l := by
  simp [List.contains, List.elem_iff]

theorem find?_mapped_eq (files : List (Path × Content)) (src dst r : Path)
    (hr : r ≠ []) :
    (files.filterMap
        (fun pc => (stripPrefixPath src pc.1).map (fun s => (dst ++ s, pc.2)))).find?
      (fun pc => pc.1 == dst ++ r) =
    (files.find? (fun pc => pc.1 == src ++ r)).map (fun pc => (dst ++ r, pc.2)) := by
  induction files with
  | nil => rfl
  | cons a l ih =>
    cases hstrip : stripPrefixPath src a.1 with
    | none =>
      have hne : (a.1 == src ++ r) = false := by
        rw [Bool.eq_false_iff]
        intro hbeq
        rw [beq_iff_eq] at hbeq
        rw [hbeq, stripPrefixPath_append_self hr] at hstrip
        exact Option.noConfusion hstrip
      simp only [List.filterMap_cons, hstrip, Option.map_none', List.find?_cons,
        hne, cond_false]
      exact ih
    | some s =>
      obtain ⟨hkey, hs⟩ := stripPrefixPath_eq_some.mp hstrip
      by_cases hsr : s = r
      · subst hsr
        have h1 : ((dst ++ s, a.2).1 == dst ++ s) = true := by simp
        have h2 : (a.1 == src ++ s) = true := by simp [hkey]
        simp only [List.filterMap_cons, hstrip, Option.map_some', List.find?_cons,
          h1, h2, cond_true, Option.map_some']
      · have h1 : ((dst ++ s, a.2).1 == dst ++ r) = false := by
          simp only [beq_eq_false_iff_ne, ne_eq]
          exact append_ne_append hsr
        have h2 : (a.1 == src ++ r) = false := by
          simp only [beq_eq_false_iff_ne, ne_eq, hkey]
          exact append_ne_append hsr
        simp only [List.filterMap_cons, hstrip, Option.map_some', List.find?_cons,
          h1, h2, cond_false]
        exact ih

theorem FS.lookupFile_copyTree_dst (fs : FS) (src dst r : Path) (hr : r ≠ []) :
    (fs.copyTree src dst).lookupFile (dst ++ r) =
      (fs.lookupFile (src ++ r)).or (fs.lookupFile (dst ++ r)) := by
  simp only [FS.copyTree, FS.lookupFile, List.find?_append,
    find?_mapped_eq fs.files src dst r hr]
  cases fs.files.find? (fun pc => pc.1 == src ++ r) <;> simp

theorem find?_mapped_none (files : List (Path × Content)) (src dst q : Path)
    (h : stripPrefixPath dst q = none) :
    (files.filterMap
        (fun pc => (stripPrefixPath src pc.1).map (fun s => (dst ++ s, pc.2)))).find?
      (fun pc => pc.1 == q) = none := by
  rw [List.find?_eq_none]
  intro x hx hbeq
  obtain ⟨a, _, hfa⟩ := List.mem_filterMap.mp hx
  cases hs : stripPrefixPath src a.1 with
  | none => rw [hs] at hfa; exact Option.noConfusion hfa
  | some s =>
    rw [hs] at hfa
    simp only [Option.map_some', Option.some.injEq] at hfa
    obtain ⟨-, hsne⟩ := stripPrefixPath_eq_some.mp hs
    rw [beq_iff_eq] at hbeq
    have : q = dst ++ s := by rw [← hbeq, ← hfa]
    rw [this, stripPrefixPath_append_self hsne] at h
    exact Option.noConfusion h

theorem FS.lookupFile_copyTree_not_dst (fs : FS) (src dst q : Path)
    (h : stripPrefixPath dst q = none) :
    (fs.copyTree src dst).lookupFile q = fs.lookupFile q := by
  simp only [FS.copyTree, FS.lookupFile, List.find?_append,
    find?_mapped_none fs.files src dst q h, Option.none_or]

theorem FS.mem_dirs_copyTree_of_mem (fs : FS) (src dst : Path) {d : Path}
    (h : d ∈ fs.dirs) : d ∈ (fs.copyTree src dst).dirs :=
  List.mem_append.mpr (Or.inr h)

theorem FS.mem_dirs_copyTree_mapped (fs : FS) (src dst : Path) {d r : Path}
    (h : d ∈ fs.dirs) (hs : stripPrefixPath src d = some r) :
    dst ++ r ∈ (fs.copyTree src dst).dirs :=
  List.mem_append.mpr (Or.inl (List.mem_filterMap.mpr ⟨d, h, by simp [hs]⟩))

theorem FS.files_suffix_copyTree (fs : FS) (src dst : Path) :
    fs.files <:+ (fs.copyTree src dst).files := ⟨_, rfl⟩

theorem FS.files_suffix_writeFile (fs : FS) (p : Path) (c : Content) :
    fs.files <:+ (fs.writeFile p c).files := ⟨[(p, c)], rfl⟩

/-! ## `OutExt`: a run only adds entries inside (or leading to) the output
directory.  Used to show that the source tree the scripts read from is
unperturbed by earlier steps of the same run. -/

/-- `fs` extends `fs0` with files strictly under `out` and directories that
are under `out` or ancestors of `out`. -/
def OutExt (out : Path) (fs0 fs : FS) : Prop :=
  (∃ nf, fs.files = nf ++ fs0.files ∧
     ∀ pc ∈ nf, ∃ r, r ≠ [] ∧ pc.1 = out ++ r) ∧
  (∃ nd, fs.dirs = nd ++ fs0.dirs ∧
     ∀ d ∈ nd, (∃ r, d = out ++ r) ∨ (d <+: out ∧ d ≠ []))

theorem OutExt.base {out : Path} {fs0 : FS} : OutExt out fs0 fs0 :=
  ⟨⟨[], by simp, by simp⟩, ⟨[], by simp, by simp⟩⟩

theorem OutExt.comp {out : Path} {fs0 fs1 fs2 : FS}
    (h1 : OutExt out fs0 fs1) (h2 : OutExt out fs1 fs2) : OutExt out fs0 fs2 := by
  obtain ⟨⟨nf1, e1, k1⟩, ⟨nd1, d1, m1⟩⟩ := h1
  obtain ⟨⟨nf2, e2, k2⟩, ⟨nd2, d2, m2⟩⟩ := h2
  refine ⟨⟨nf2 ++ nf1, by rw [e2, e1, List.append_assoc], ?_⟩,
          ⟨nd2 ++ nd1, by rw [d2, d1, List.append_assoc], ?_⟩⟩
  · intro pc hpc
    rcases List.mem_append.mp hpc with h | h
    · exact k2 pc h
    · exact k1 pc h
  · intro d hd
    rcases List.mem_append.mp hd with h | h
    · exact m2 d h
    · exact m1 d h

theorem OutExt.write_out {out : Path} {fs0 fs : FS} (h : OutExt out fs0 fs)
    (r : Path) (hr : r ≠ []) (c : Content) :
    OutExt out fs0 (fs.writeFile (out ++ r) c) := by
  obtain ⟨⟨nf, e, k⟩, hd⟩ := h
  refine ⟨⟨(out ++ r, c) :: nf, by simp [FS.writeFile, e], ?_⟩, hd⟩
  intro pc hpc
  rcases List.mem_cons.mp hpc with h | h
  · exact ⟨r, hr, by rw [h]⟩
  · exact k pc h

theorem OutExt.mkdirRec_out {out : Path} {fs0 fs : FS} (h : OutExt out fs0 fs) :
    OutExt out fs0 (fs.mkdirRec out) := by
  obtain ⟨hf, ⟨nd, d, m⟩⟩ := h
  refine ⟨hf, ⟨prefixesOf out ++ nd, by simp [FS.mkdirRec, d], ?_⟩⟩
  intro x hx
  rcases List.mem_append.mp hx with h | h
  · obtain ⟨h1, h2⟩ := of_mem_prefixesOf h
    exact Or.inr ⟨h2, h1⟩
  · exact m x h

theorem OutExt.copyTree_out {out : Path} {fs0 fs : FS} (h : OutExt out fs0 fs)
    (src : Path) (w : List String) :
    OutExt out fs0 (fs.copyTree src (out ++ w)) := by
  obtain ⟨⟨nf, e, k⟩, ⟨nd, d, m⟩⟩ := h
  constructor
  · refine ⟨fs.files.filterMap
        (fun pc => (stripPrefixPath src pc.1).map (fun s => (out ++ w ++ s, pc.2))) ++ nf,
      by simp [FS.copyTree, e, List.append_assoc], ?_⟩
    intro pc hpc
    rcases List.mem_append.mp hpc with hmem | hmem
    · obtain ⟨a, -, hfa⟩ := List.mem_filterMap.mp hmem
      cases hs : stripPrefixPath src a.1 with
      | none => rw [hs] at hfa; exact Option.noConfusion hfa
      | some s =>
        rw [hs] at hfa
        simp only [Option.map_some', Option.some.injEq] at hfa
        obtain ⟨-, hsne⟩ := stripPrefixPath_eq_some.mp hs
        exact ⟨w ++ s, by simp [hsne], by rw [← hfa, List.append_assoc]⟩
    · exact k pc hmem
  · refine ⟨fs.dirs.filterMap
        (fun x => (stripPrefixPath src x).map (fun s => out ++ w ++ s)) ++ nd,
      by simp [FS.copyTree, d, List.append_assoc], ?_⟩
    intro x hx
    rcases List.mem_append.mp hx with hmem | hmem
    · obtain ⟨a, -, hfa⟩ := List.mem_filterMap.mp hmem
      cases hs : stripPrefixPath src a with
      | none => rw [hs] at hfa; exact Option.noConfusion hfa
      | some s =>
        rw [hs] at hfa
        simp only [Option.map_some', Option.some.injEq] at hfa
        exact Or.inl ⟨w ++ s, by rw [← hfa, List.append_assoc]⟩
    · exact m x hmem

theorem OutExt.copyDirAs_out {out : Path} {fs0 fs : FS} (h : OutExt out fs0 fs)
    (src : Path) (w : List String) :
    OutExt out fs0 (fs.copyDirAs src (out ++ w)) := by
  obtain ⟨hf, ⟨nd, d, m⟩⟩ := OutExt.copyTree_out h src w
  exact ⟨hf, ⟨(out ++ w) :: nd, by simp [FS.copyDirAs, FS.copyTree] at d ⊢; exact d,
    by intro x hx
       rcases List.mem_cons.mp hx with h | h
       · exact Or.inl ⟨w, h⟩
       · exact m x h⟩⟩

theorem OutExt.lookup_root_side {out root : Path} {fs0 fs : FS} {p : Path}
    (h : OutExt out fs0 fs)
    (h1 : prefixB out root = false) (h2 : prefixB root out = false)
    (hp : root <+: p) : fs.lookupFile p = fs0.lookupFile p := by
  obtain ⟨⟨nf, e, k⟩, -⟩ := h
  simp only [FS.lookupFile, e, List.find?_append]
  have hnone : nf.find? (fun pc => pc.1 == p) = none := by
    rw [List.find?_eq_none]
    intro x hx hbeq
    obtain ⟨r, hr, hkey⟩ := k x hx
    rw [beq_iff_eq] at hbeq
    have hpe : p = out ++ r := by rw [← hbeq, hkey]
    have := strip_out_none_of_sep h1 h2 hp
    rw [hpe, stripPrefixPath_append_self hr] at this
    exact Option.noConfusion this
  rw [hnone, Option.none_or]

theorem OutExt.existsPath_root_side {out root : Path} {fs0 fs : FS} {p : Path}
    (h : OutExt out fs0 fs)
    (h1 : prefixB out root = false) (h2 : prefixB root out = false)
    (hp : root <+: p) : fs.existsPath p = fs0.existsPath p := by
  have hl := OutExt.lookup_root_side h h1 h2 hp
  obtain ⟨-, ⟨nd, d, m⟩⟩ := h
  have hc : fs.dirs.contains p = fs0.dirs.contains p := by
    rw [d]
    cases hb : fs0.dirs.contains p with
    | true =>
      rw [contains_iff_mem] at hb
      exact contains_iff_mem.mpr (List.mem_append.mpr (Or.inr hb))
    | false =>
      rw [Bool.eq_false_iff]
      intro hcontra
      rw [contains_iff_mem, List.mem_append] at hcontra
      rcases hcontra with hmem | hmem
      · rcases m p hmem with ⟨r, hr⟩ | ⟨hpre, -⟩
        · rcases List.prefix_or_prefix_of_prefix ⟨r, hr.symm⟩ hp with hh | hh
          · rw [← prefixB_iff] at hh; rw [hh] at h1; exact Bool.noConfusion h1
          · rw [← prefixB_iff] at hh; rw [hh] at h2; exact Bool.noConfusion h2
        · have : root <+: out := hp.trans hpre
          rw [← prefixB_iff] at this; rw [this] at h2; exact Bool.noConfusion h2
      · rw [← contains_iff_mem] at hmem; rw [hmem] at hb; exact Bool.noConfusion hb
  simp only [FS.existsPath, hl, hc]

theorem OutExt.files_grow {out : Path} {fs0 fs : FS} (h : OutExt out fs0 fs) :
    fs0.files <:+ fs.files := by
  obtain ⟨⟨nf, e, -⟩, -⟩ := h
  exact ⟨nf, e.symm⟩

/-! ## `WritesWithin`: the precise set of paths a run may write. -/

/-- `fs` extends `fs0` only with files whose paths are in `w`. -/
def WritesWithin (w : List Path) (fs0 fs : FS) : Prop :=
  ∃ nf, fs.files = nf ++ fs0.files ∧ ∀ pc ∈ nf, pc.1 ∈ w

theorem WritesWithin.start {w : List Path} {fs0 : FS} : WritesWithin w fs0 fs0 :=
  ⟨[], by simp, by simp⟩

theorem WritesWithin.chain {w : List Path} {fs0 fs1 fs2 : FS}
    (h1 : WritesWithin w fs0 fs1) (h2 : WritesWithin w fs1 fs2) :
    WritesWithin w fs0 fs2 := by
  obtain ⟨nf1, e1, k1⟩ := h1
  obtain ⟨nf2, e2, k2⟩ := h2
  refine ⟨nf2 ++ nf1, by rw [e2, e1, List.append_assoc], ?_⟩
  intro pc hpc
  rcases List.mem_append.mp hpc with h | h
  · exact k2 pc h
  · exact k1 pc h

theorem WritesWithin.mono {w w' : List Path} {fs0 fs : FS}
    (hsub : ∀ p ∈ w, p ∈ w') (h : WritesWithin w fs0 fs) :
    WritesWithin w' fs0 fs := by
  obtain ⟨nf, e, k⟩ := h
  exact ⟨nf, e, fun pc hpc => hsub pc.1 (k pc hpc)⟩

theorem WritesWithin.write_w {w : List Path} {fs0 fs : FS} {p : Path}
    (h : WritesWithin w fs0 fs) (hp : p ∈ w) (c : Content) :
    WritesWithin w fs0 (fs.writeFile p c) := by
  obtain ⟨nf, e, k⟩ := h
  refine ⟨(p, c) :: nf, by simp [FS.writeFile, e], ?_⟩
  intro pc hpc
  rcases List.mem_cons.mp hpc with hh | hh
  · rw [hh]; exact hp
  · exact k pc hh

theorem WritesWithin.mkdirRec {w : List Path} {fs0 fs : FS} (p : Path)
    (h : WritesWithin w fs0 fs) : WritesWithin w fs0 (fs.mkdirRec p) := h

theorem WritesWithin.copyTree {w : List Path} {fs0 fs : FS} {src dst : Path}
    (h : WritesWithin w fs0 fs)
    (hmap : ∀ pc ∈ fs.files, ∀ r, stripPrefixPath src pc.1 = some r → dst ++ r ∈ w) :
    WritesWithin w fs0 (fs.copyTree src dst) := by
  obtain ⟨nf, e, k⟩ := h
  refine ⟨fs.files.filterMap
      (fun pc => (stripPrefixPath src pc.1).map (fun s => (dst ++ s, pc.2))) ++ nf,
    by simp [FS.copyTree, e, List.append_assoc], ?_⟩
  intro pc hpc
  rcases List.mem_append.mp hpc with hmem | hmem
  · obtain ⟨a, ha, hfa⟩ := List.mem_filterMap.mp hmem
    cases hs : stripPrefixPath src a.1 with
    | none => rw [hs] at hfa; exact Option.noConfusion hfa
    | some s =>
      rw [hs] at hfa
      simp only [Option.map_some', Option.some.injEq] at hfa
      have := hmap a ha s hs
      rw [← hfa]; exact this
  · exact k pc hmem

theorem WritesWithin.copyDirAs {w : List Path} {fs0 fs : FS} {src tgt : Path}
    (h : WritesWithin w fs0 fs)
    (hmap : ∀ pc ∈ fs.files, ∀ r, stripPrefixPath src pc.1 = some r → tgt ++ r ∈ w) :
    WritesWithin w fs0 (fs.copyDirAs src tgt) :=
  WritesWithin.copyTree h hmap

theorem WritesWithin.lookup_frame {w : List Path} {fs0 fs : FS} {q : Path}
    (h : WritesWithin w fs0 fs) (hq : q ∉ w) :
    fs.lookupFile q = fs0.lookupFile q := by
  obtain ⟨nf, e, k⟩ := h
  simp only [FS.lookupFile, e, List.find?_append]
  have hnone : nf.find? (fun pc => pc.1 == q) = none := by
    rw [List.find?_eq_none]
    intro x hx hbeq
    rw [beq_iff_eq] at hbeq
    exact hq (hbeq ▸ k x hx)
  rw [hnone, Option.none_or]

theorem WritesWithin.files_keep {w : List Path} {fs0 fs : FS}
    (h : WritesWithin w fs0 fs) : fs0.files <:+ fs.files := by
  obtain ⟨nf, e, -⟩ := h
  exact ⟨nf, e.symm⟩

theorem or_some_left {a : Content} {x : Option Content} : (some a).or x = some a := rfl

/-! ## Symbolic execution of one guarded artifact copy. -/

/-- Behaviour of `copyIfExists` when the destination directory exists, the
output directory is disjoint from the repository root, and the source (if
present at all) is a file. -/
theorem copyIfExists_spec {out root : Path} {fs0 fs : FS} (src : Path)
    (dstSub : List String) (fname : String) (logLine : String)
    (hx : OutExt out fs0 fs)
    (h1 : prefixB out root = false) (h2 : prefixB root out = false)
    (hroot : root <+: src)
    (hart : fs0.existsPath src = true → ∃ c, fs0.lookupFile src = some c)
    (hdir : (out ++ dstSub) ∈ fs.dirs) :
    ∃ fs', copyIfExists fs src (out ++ dstSub) fname logLine =
        .ok (fs', if fs0.existsPath src = true then [logLine] else []) ∧
      OutExt out fs0 fs' ∧
      fs'.dirs = fs.dirs ∧
      fs.files <:+ fs'.files ∧
      (∀ q, q ≠ out ++ dstSub ++ [fname] → fs'.lookupFile q = fs.lookupFile q) ∧
      (fs0.existsPath src = true →
        (fs'.lookupFile (out ++ dstSub ++ [fname])).isSome = true) ∧
      (fs0.existsPath src = false → fs' = fs) := by
  have hguard : fs.existsPath src = fs0.existsPath src :=
    OutExt.existsPath_root_side hx h1 h2 hroot
  cases hg : fs0.existsPath src with
  | false =>
    refine ⟨fs, ?_, hx, rfl, List.suffix_refl _, fun q _ => rfl,
      fun hcontra => Bool.noConfusion hcontra, fun _ => rfl⟩
    unfold copyIfExists
    rw [hguard, hg]
    simp
  | true =>
    obtain ⟨c, hc⟩ := hart hg
    have hlook : fs.lookupFile src = some c :=
      (OutExt.lookup_root_side hx h1 h2 hroot).trans hc
    have hcont : fs.dirs.contains (out ++ dstSub) = true := contains_iff_mem.mpr hdir
    refine ⟨fs.writeFile (out ++ dstSub ++ [fname]) c, ?_, ?_, rfl,
      FS.files_suffix_writeFile fs _ c,
      fun q hq => FS.lookupFile_writeFile_ne fs c hq, ?_, ?_⟩
    · unfold copyIfExists FS.copyFileSync
      rw [hguard, hg, hcont]
      simp [hlook]
    · have := hx.write_out (dstSub ++ [fname]) (by simp) c
      rwa [← List.append_assoc] at this
    · intro _
      rw [FS.lookupFile_writeFile_self]
      rfl
    · intro hcontra; exact Bool.noConfusion hcontra

/-! ## Symbolic execution of a full `createExample` run on a well-formed
source tree. -/

/-- Master lemma for a known example name: the run succeeds, its exact
output lines, the destination layout (template subdirectories, artifacts
copied when their source exists and absent when not, README content,
rewritten manifest). -/
theorem createExample_known
    (root : Path) (fs0 : FS) (name : String) (cfg : ExampleConfig) (out : Path)
    (m : Manifest)
    (hmap : mapLookup EXAMPLES_MAP name = some cfg)
    (hfresh : fs0.existsPath out = false)
    (hne : out ≠ [])
    (h1 : prefixB out root = false) (h2 : prefixB root out = false)
    (hpkg : fs0.lookupFile (root ++ ["fhevm-hardhat-template", "package.json"]) =
      some (.manifest m))
    (hcdir : root ++ ["fhevm-hardhat-template", "contracts"] ∈ fs0.dirs)
    (htdir : root ++ ["fhevm-hardhat-template", "test"] ∈ fs0.dirs)
    (hcart : fs0.existsPath (root ++ ["contracts"] ++ cfg.contract) = true →
      ∃ c, fs0.lookupFile (root ++ ["contracts"] ++ cfg.contract) = some c)
    (htart : fs0.existsPath (root ++ ["test"] ++ cfg.test) = true →
      ∃ c, fs0.lookupFile (root ++ ["test"] ++ cfg.test) = some c) :
    (createExample root fs0 name out).outcome = .ok ∧
    (createExample root fs0 name out).stderr = [] ∧
    (createExample root fs0 name out).stdout =
      ["🚀 Creating " ++ name ++ " example in " ++ renderPath out,
       "📁 Copying base template..."] ++
      (if fs0.existsPath (root ++ ["contracts"] ++ cfg.contract) = true then
        ["📄 Copying contract: " ++ renderPath cfg.contract] else []) ++
      (if fs0.existsPath (root ++ ["test"] ++ cfg.test) = true then
        ["🧪 Copying test: " ++ renderPath cfg.test] else []) ++
      ["✅ Example \x27" ++ name ++ "\x27 created successfully!",
       "\nNext steps:", "  cd " ++ renderPath out,
       "  npm install", "  npm run compile", "  npm run test"] ∧
    (out ++ ["contracts"]) ∈ (createExample root fs0 name out).fs.dirs ∧
    (out ++ ["test"]) ∈ (createExample root fs0 name out).fs.dirs ∧
    (fs0.existsPath (root ++ ["contracts"] ++ cfg.contract) = true →
      ((createExample root fs0 name out).fs.lookupFile
        (out ++ ["contracts"] ++ [basename cfg.contract])).isSome = true) ∧
    (fs0.existsPath (root ++ ["test"] ++ cfg.test) = true →
      ((createExample root fs0 name out).fs.lookupFile
        (out ++ ["test"] ++ [basename cfg.test])).isSome = true) ∧
    (fs0.existsPath (root ++ ["contracts"] ++ cfg.contract) = false →
     fs0.lookupFile
       (root ++ ["fhevm-hardhat-template", "contracts", basename cfg.contract]) = none →
     fs0.lookupFile (out ++ ["contracts"] ++ [basename cfg.contract]) = none →
      (createExample root fs0 name out).fs.lookupFile
        (out ++ ["contracts"] ++ [basename cfg.contract]) = none) ∧
    (fs0.existsPath (root ++ ["test"] ++ cfg.test) = false →
     fs0.lookupFile
       (root ++ ["fhevm-hardhat-template", "test", basename cfg.test]) = none →
     fs0.lookupFile (out ++ ["test"] ++ [basename cfg.test]) = none →
      (createExample root fs0 name out).fs.lookupFile
        (out ++ ["test"] ++ [basename cfg.test]) = none) ∧
    (createExample root fs0 name out).fs.lookupFile (out ++ ["README.md"]) =
      some (.text (generateReadme name cfg)) ∧
    (createExample root fs0 name out).fs.lookupFile (out ++ ["package.json"]) =
      some (.manifest { m with
        name := "fhevm-" ++ name
        description := cfg.description
        keywords := ["fhevm", "zama", "fhe", "privacy", "blockchain",
                     cfg.category] }) := by
  -- Stage 1: directory creation and template copy.
  have hlook1 : (fs0.mkdirRec out).lookupFile
      ((root ++ ["fhevm-hardhat-template"]) ++ ["package.json"]) =
      some (.manifest m) := by
    rw [FS.lookupFile_mkdirRec, List.append_assoc]
    simpa using hpkg
  have hent : (fs0.mkdirRec out).hasEntriesUnder
      (root ++ ["fhevm-hardhat-template"]) = true :=
    FS.hasEntriesUnder_of_lookup hlook1 (by simp)
  have hx1 : OutExt out fs0 (fs0.mkdirRec out) := OutExt.base.mkdirRec_out
  have hx2 : OutExt out fs0
      ((fs0.mkdirRec out).copyTree (root ++ ["fhevm-hardhat-template"]) out) := by
    have := hx1.copyTree_out (root ++ ["fhevm-hardhat-template"]) []
    rwa [List.append_nil] at this
  have houtm : out ∈ (fs0.mkdirRec out).dirs := fs0.mem_dirs_mkdirRec_self hne
  have hout2 : out ∈
      ((fs0.mkdirRec out).copyTree (root ++ ["fhevm-hardhat-template"]) out).dirs :=
    FS.mem_dirs_copyTree_of_mem _ _ _ houtm
  have hcd2 : out ++ ["contracts"] ∈
      ((fs0.mkdirRec out).copyTree (root ++ ["fhevm-hardhat-template"]) out).dirs := by
    apply FS.mem_dirs_copyTree_mapped _ _ _
      (d := root ++ ["fhevm-hardhat-template"] ++ ["contracts"])
    · apply FS.mem_dirs_mkdirRec_of_mem
      rwa [List.append_assoc]
    · exact stripPrefixPath_append_self (by simp)
  have htd2 : out ++ ["test"] ∈
      ((fs0.mkdirRec out).copyTree (root ++ ["fhevm-hardhat-template"]) out).dirs := by
    apply FS.mem_dirs_copyTree_mapped _ _ _
      (d := root ++ ["fhevm-hardhat-template"] ++ ["test"])
    · apply FS.mem_dirs_mkdirRec_of_mem
      rwa [List.append_assoc]
    · exact stripPrefixPath_append_self (by simp)
  -- Stage 2: the two guarded artifact copies.
  obtain ⟨fs3, heC, hx3, hdirs3, hsuf3, hframe3, hsomeC, hskipC⟩ :=
    copyIfExists_spec
      (root ++ ["contracts"] ++ cfg.contract) ["contracts"]
      (basename cfg.contract)
      ("📄 Copying contract: " ++ renderPath cfg.contract)
      hx2 h1 h2 ⟨["contracts"] ++ cfg.contract, by rw [List.append_assoc]⟩
      hcart hcd2
  obtain ⟨fs4, heT, hx4, hdirs4, hsuf4, hframe4, hsomeT, hskipT⟩ :=
    copyIfExists_spec
      (root ++ ["test"] ++ cfg.test) ["test"] (basename cfg.test)
      ("🧪 Copying test: " ++ renderPath cfg.test)
      hx3 h1 h2 ⟨["test"] ++ cfg.test, by rw [List.append_assoc]⟩
      htart (by rw [hdirs3]; exact htd2)
  -- Stage 3: the README and manifest writes.
  have hout4 : out ∈ fs4.dirs := by rw [hdirs4, hdirs3]; exact hout2
  have hpkg2 : ((fs0.mkdirRec out).copyTree (root ++ ["fhevm-hardhat-template"])
      out).lookupFile (out ++ ["package.json"]) = some (.manifest m) := by
    rw [FS.lookupFile_copyTree_dst _ _ _ ["package.json"] (by simp)]
    rw [FS.lookupFile_mkdirRec, List.append_assoc]
    have : fs0.lookupFile (root ++ (["fhevm-hardhat-template"] ++ ["package.json"])) =
        some (.manifest m) := by simpa using hpkg
    rw [this, or_some_left]
  have hqPkgT : (out ++ ["package.json"]) ≠ out ++ ["test"] ++ [basename cfg.test] := by
    rw [List.append_assoc]; exact append_ne_append (by simp)
  have hqPkgC : (out ++ ["package.json"]) ≠
      out ++ ["contracts"] ++ [basename cfg.contract] := by
    rw [List.append_assoc]; exact append_ne_append (by simp)
  have hpkg4 : fs4.lookupFile (out ++ ["package.json"]) = some (.manifest m) := by
    rw [hframe4 _ hqPkgT, hframe3 _ hqPkgC]
    exact hpkg2
  have hpkg5 : (fs4.writeFile (out ++ ["README.md"])
      (.text (generateReadme name cfg))).lookupFile (out ++ ["package.json"]) =
      some (.manifest m) := by
    rw [FS.lookupFile_writeFile_ne _ _ (append_ne_append (by simp))]
    exact hpkg4
  have hupd : updatePackageJson (fs4.writeFile (out ++ ["README.md"])
      (.text (generateReadme name cfg))) out name cfg =
      .ok ((fs4.writeFile (out ++ ["README.md"])
        (.text (generateReadme name cfg))).writeFile (out ++ ["package.json"])
        (.manifest { m with
          name := "fhevm-" ++ name
          description := cfg.description
          keywords := ["fhevm", "zama", "fhe", "privacy", "blockchain",
                       cfg.category] })) := by
    simp only [updatePackageJson]
    rw [hpkg5]
  -- Stage 4: assemble the whole run.
  have hrun : createExample root fs0 name out =
      { fs := ((fs4.writeFile (out ++ ["README.md"])
           (.text (generateReadme name cfg))).writeFile (out ++ ["package.json"])
           (.manifest { m with
             name := "fhevm-" ++ name
             description := cfg.description
             keywords := ["fhevm", "zama", "fhe", "privacy", "blockchain",
                          cfg.category] }))
        stdout := (["🚀 Creating " ++ name ++ " example in " ++ renderPath out] ++
            ["📁 Copying base template..."]) ++
          (if fs0.existsPath (root ++ ["contracts"] ++ cfg.contract) = true then
            ["📄 Copying contract: " ++ renderPath cfg.contract] else []) ++
          (if fs0.existsPath (root ++ ["test"] ++ cfg.test) = true then
            ["🧪 Copying test: " ++ renderPath cfg.test] else []) ++
          ["✅ Example \x27" ++ name ++ "\x27 created successfully!",
           "\nNext steps:", "  cd " ++ renderPath out,
           "  npm install", "  npm run compile", "  npm run test"]
        stderr := []
        outcome := .ok } := by
    simp only [createExample, hmap, hfresh, Bool.false_eq_true, if_false, hent,
      if_true, heC, heT]
    rw [if_pos hout4, hupd]
  rw [hrun]
  have hdirs6 : (((fs4.writeFile (out ++ ["README.md"])
      (.text (generateReadme name cfg))).writeFile (out ++ ["package.json"])
      (.manifest { m with
        name := "fhevm-" ++ name
        description := cfg.description
        keywords := ["fhevm", "zama", "fhe", "privacy", "blockchain",
                     cfg.category] }))).dirs = fs4.dirs := rfl
  refine ⟨rfl, rfl, rfl, ?_, ?_, ?_, ?_, ?_, ?_, ?_, ?_⟩
  · rw [hdirs6, hdirs4, hdirs3]; exact hcd2
  · rw [hdirs6, hdirs4, hdirs3]; exact htd2
  · intro hex
    apply FS.lookup_isSome_of_suffix (FS.files_suffix_writeFile _ _ _)
    apply FS.lookup_isSome_of_suffix (FS.files_suffix_writeFile _ _ _)
    apply FS.lookup_isSome_of_suffix hsuf4
    exact hsomeC hex
  · intro hex
    apply FS.lookup_isSome_of_suffix (FS.files_suffix_writeFile _ _ _)
    apply FS.lookup_isSome_of_suffix (FS.files_suffix_writeFile _ _ _)
    exact hsomeT hex
  · intro hex htplNone hdstNone
    have hqCP : (out ++ ["contracts"] ++ [basename cfg.contract]) ≠
        out ++ ["package.json"] := by
      rw [List.append_assoc]; exact append_ne_append (by simp)
    have hqCR : (out ++ ["contracts"] ++ [basename cfg.contract]) ≠
        out ++ ["README.md"] := by
      rw [List.append_assoc]; exact append_ne_append (by simp)
    have hqCT : (out ++ ["contracts"] ++ [basename cfg.contract]) ≠
        out ++ ["test"] ++ [basename cfg.test] := by
      rw [List.append_assoc, List.append_assoc]
      exact append_ne_append (by simp)
    rw [FS.lookupFile_writeFile_ne _ _ hqCP,
        FS.lookupFile_writeFile_ne _ _ hqCR,
        hframe4 _ hqCT, hskipC hex]
    rw [List.append_assoc]
    rw [FS.lookupFile_copyTree_dst _ _ _ (["contracts"] ++ [basename cfg.contract])
      (by simp)]
    simp only [FS.lookupFile_mkdirRec]
    have htpl' : fs0.lookupFile ((root ++ ["fhevm-hardhat-template"]) ++
        (["contracts"] ++ [basename cfg.contract])) = none := by
      have he : (root ++ ["fhevm-hardhat-template"]) ++
          (["contracts"] ++ [basename cfg.contract]) =
          root ++ ["fhevm-hardhat-template", "contracts", basename cfg.contract] := by
        simp
      rw [he]; exact htplNone
    have hdst' : fs0.lookupFile (out ++ (["contracts"] ++ [basename cfg.contract])) =
        none := by
      rw [← List.append_assoc]; exact hdstNone
    rw [htpl', hdst']
    rfl
  · intro hex htplNone hdstNone
    have hqTP : (out ++ ["test"] ++ [basename cfg.test]) ≠
        out ++ ["package.json"] := by
      rw [List.append_assoc]; exact append_ne_append (by simp)
    have hqTR : (out ++ ["test"] ++ [basename cfg.test]) ≠
        out ++ ["README.md"] := by
      rw [List.append_assoc]; exact append_ne_append (by simp)
    have hqTC : (out ++ ["test"] ++ [basename cfg.test]) ≠
        out ++ ["contracts"] ++ [basename cfg.contract] := by
      rw [List.append_assoc, List.append_assoc]
      exact append_ne_append (by simp)
    rw [FS.lookupFile_writeFile_ne _ _ hqTP,
        FS.lookupFile_writeFile_ne _ _ hqTR,
        hskipT hex, hframe3 _ hqTC]
    rw [List.append_assoc]
    rw [FS.lookupFile_copyTree_dst _ _ _ (["test"] ++ [basename cfg.test])
      (by simp)]
    simp only [FS.lookupFile_mkdirRec]
    have htpl2 : fs0.lookupFile ((root ++ ["fhevm-hardhat-template"]) ++
        (["test"] ++ [basename cfg.test])) = none := by
      have he : (root ++ ["fhevm-hardhat-template"]) ++
          (["test"] ++ [basename cfg.test]) =
          root ++ ["fhevm-hardhat-template", "test", basename cfg.test] := by
        simp
      rw [he]; exact htplNone
    have hdst2 : fs0.lookupFile (out ++ (["test"] ++ [basename cfg.test])) =
        none := by
      rw [← List.append_assoc]; exact hdstNone
    rw [htpl2, hdst2]
    rfl
  · rw [FS.lookupFile_writeFile_ne _ _ (append_ne_append (by simp)),
        FS.lookupFile_writeFile_self]
  · rw [FS.lookupFile_writeFile_self]

/-! ## Symbolic execution of `generateDocs`. -/

theorem FS.existsPath_of_mem_dirs {fs : FS} {p : Path} (h : p ∈ fs.dirs) :
    fs.existsPath p = true := by
  simp only [FS.existsPath, Bool.or_eq_true]
  exact Or.inr (contains_iff_mem.mpr h)

theorem FS.dirs_mkdirRec (fs : FS) (p : Path) :
    (fs.mkdirRec p).dirs = prefixesOf p ++ fs.dirs := rfl

theorem FS.existsPath_eq_false_iff {fs : FS} {p : Path} :
    fs.existsPath p = false ↔ fs.lookupFile p = none ∧ p ∉ fs.dirs := by
  simp only [FS.existsPath, Bool.or_eq_false_iff]
  constructor
  · rintro ⟨h1, h2⟩
    refine ⟨?_, ?_⟩
    · cases hl : fs.lookupFile p with
      | none => rfl
      | some c => rw [hl] at h1; exact Bool.noConfusion h1
    · intro hm; rw [contains_iff_mem.mpr hm] at h2; exact Bool.noConfusion h2
  · rintro ⟨h1, h2⟩
    refine ⟨by rw [h1]; rfl, ?_⟩
    cases hc : fs.dirs.contains p with
    | false => rfl
    | true => exact absurd (contains_iff_mem.mp hc) h2

theorem FS.existsPath_mkdirRec_eq {fs : FS} {p q : Path} (h : q ∉ prefixesOf p) :
    (fs.mkdirRec p).existsPath q = fs.existsPath q := by
  simp only [FS.existsPath, FS.lookupFile_mkdirRec, FS.dirs_mkdirRec]
  have : (prefixesOf p ++ fs.dirs).contains q = fs.dirs.contains q := by
    cases hb : fs.dirs.contains q with
    | true =>
      rw [contains_iff_mem] at hb
      exact contains_iff_mem.mpr (List.mem_append.mpr (Or.inr hb))
    | false =>
      rw [Bool.eq_false_iff]
      intro hc
      rw [contains_iff_mem, List.mem_append] at hc
      rcases hc with hc | hc
      · exact h hc
      · rw [← contains_iff_mem] at hc; rw [hc] at hb; exact Bool.noConfusion hb
  rw [this]

theorem FS.existsPath_writeFile_ne {fs : FS} {p q : Path} (c : Content)
    (h : q ≠ p) : (fs.writeFile p c).existsPath q = fs.existsPath q := by
  simp only [FS.existsPath, FS.lookupFile_writeFile_ne fs c h, FS.dirs_writeFile]

/-- Rendering the markdown document only depends on the filesystem through
the two artifact paths. -/
theorem generateMarkdownDoc_congr (root : Path) (fsA fsB : FS) (name : String)
    (cfg : DocConfig)
    (hCe : fsA.existsPath (getContractPath root name) =
      fsB.existsPath (getContractPath root name))
    (hC : fsA.lookupFile (getContractPath root name) =
      fsB.lookupFile (getContractPath root name))
    (hTe : fsA.existsPath (getTestPath root name) =
      fsB.existsPath (getTestPath root name))
    (hT : fsA.lookupFile (getTestPath root name) =
      fsB.lookupFile (getTestPath root name)) :
    generateMarkdownDoc root fsA name cfg = generateMarkdownDoc root fsB name cfg := by
  simp only [generateMarkdownDoc, hCe, hC, hTe, hT]

/-- `generateDocs` on an unknown name: diagnostic to stderr, exit 1, and
the filesystem returned untouched. -/
theorem generateDocs_unknown (root : Path) (fs0 : FS) (name : String)
    (out : Path) (hmap : mapLookup DOCS_CONFIG name = none) :
    generateDocs root fs0 name out =
      { fs := fs0
        stdout := []
        stderr := ["❌ Documentation config for \x27" ++ name ++ "\x27 not found"]
        outcome := .exited 1 } := by
  simp only [generateDocs, hmap]

/-- `generateDocs` on a known name into a fresh output directory with no
pre-existing index document. -/
theorem generateDocs_known_fresh (root : Path) (fs0 : FS) (name : String)
    (cfg : DocConfig) (out : Path)
    (hmap : mapLookup DOCS_CONFIG name = some cfg)
    (hfresh : fs0.existsPath out = false)
    (hne : out ≠ [])
    (hdocname : (name ++ ".md") ≠ "SUMMARY.md")
    (hsum : fs0.existsPath (out ++ ["SUMMARY.md"]) = false) :
    generateDocs root fs0 name out =
      { fs := ((fs0.mkdirRec out).writeFile (out ++ [name ++ ".md"])
            (.text (generateMarkdownDoc root (fs0.mkdirRec out) name cfg))).writeFile
          (out ++ ["SUMMARY.md"])
          (.text (if containsSubstr summarySkeleton (entryLineFor name cfg) = true
                  then summarySkeleton
                  else summarySkeleton ++ entryLineFor name cfg ++ "\n"))
        stdout := ["📚 Generating documentation for " ++ name] ++
          ["✅ Documentation generated: " ++ renderPath (out ++ [name ++ ".md"])] ++
          ["📝 Updated SUMMARY.md"]
        stderr := []
        outcome := .ok } := by
  have hout1 : out ∈ (fs0.mkdirRec out).dirs := fs0.mem_dirs_mkdirRec_self hne
  have hsumlook : fs0.lookupFile (out ++ ["SUMMARY.md"]) = none := by
    rcases FS.existsPath_eq_false_iff.mp hsum with ⟨h, -⟩
    exact h
  have hsumdirs : (out ++ ["SUMMARY.md"]) ∉ fs0.dirs := by
    rcases FS.existsPath_eq_false_iff.mp hsum with ⟨-, h⟩
    exact h
  have hdq : (out ++ ["SUMMARY.md"]) ≠ out ++ [name ++ ".md"] := by
    apply append_ne_append
    intro hc
    exact hdocname (by injection hc with hh1 hh2; exact hh1.symm)
  have hsum2 : ((fs0.mkdirRec out).writeFile (out ++ [name ++ ".md"])
      (.text (generateMarkdownDoc root (fs0.mkdirRec out) name cfg))).existsPath
      (out ++ ["SUMMARY.md"]) = false := by
    rw [FS.existsPath_writeFile_ne _ hdq]
    rw [FS.existsPath_mkdirRec_eq ?hpre]
    · exact hsum
    case hpre =>
      intro hc
      have := (of_mem_prefixesOf hc).2.length_le
      simp at this
  have hout2 : out ∈ ((fs0.mkdirRec out).writeFile (out ++ [name ++ ".md"])
      (.text (generateMarkdownDoc root (fs0.mkdirRec out) name cfg))).dirs := hout1
  have hupdS : updateSummary ((fs0.mkdirRec out).writeFile (out ++ [name ++ ".md"])
      (.text (generateMarkdownDoc root (fs0.mkdirRec out) name cfg))) out name cfg =
      .ok (((fs0.mkdirRec out).writeFile (out ++ [name ++ ".md"])
          (.text (generateMarkdownDoc root (fs0.mkdirRec out) name cfg))).writeFile
          (out ++ ["SUMMARY.md"])
          (.text (if containsSubstr summarySkeleton (entryLineFor name cfg) = true
                  then summarySkeleton
                  else summarySkeleton ++ entryLineFor name cfg ++ "\n")),
        ["📝 Updated SUMMARY.md"]) := by
    simp only [updateSummary, hsum2, Bool.false_eq_true, if_false]
    rw [if_pos hout2]
  simp only [generateDocs, hmap, hfresh, Bool.false_eq_true, if_false]
  rw [if_pos hout1, hupdS]

/-- `generateDocs` re-run: output directory already exists, the index
document is a text file that already contains the entry line. -/
theorem generateDocs_known_existing (root : Path) (fs0 : FS) (name : String)
    (cfg : DocConfig) (out : Path) (S : String)
    (hmap : mapLookup DOCS_CONFIG name = some cfg)
    (houtdir : out ∈ fs0.dirs)
    (hdocname : (name ++ ".md") ≠ "SUMMARY.md")
    (hsum : fs0.lookupFile (out ++ ["SUMMARY.md"]) = some (.text S))
    (hcont : containsSubstr S (entryLineFor name cfg) = true) :
    generateDocs root fs0 name out =
      { fs := (fs0.writeFile (out ++ [name ++ ".md"])
            (.text (generateMarkdownDoc root fs0 name cfg))).writeFile
          (out ++ ["SUMMARY.md"]) (.text S)
        stdout := ["📚 Generating documentation for " ++ name] ++
          ["✅ Documentation generated: " ++ renderPath (out ++ [name ++ ".md"])] ++
          ["📝 Updated SUMMARY.md"]
        stderr := []
        outcome := .ok } := by
  have hout0 : fs0.existsPath out = true := FS.existsPath_of_mem_dirs houtdir
  have hdq : (out ++ ["SUMMARY.md"]) ≠ out ++ [name ++ ".md"] := by
    apply append_ne_append
    intro hc
    exact hdocname (by injection hc with hh1 hh2; exact hh1.symm)
  have hsum2 : (fs0.writeFile (out ++ [name ++ ".md"])
      (.text (generateMarkdownDoc root fs0 name cfg))).lookupFile
      (out ++ ["SUMMARY.md"]) = some (.text S) := by
    rw [FS.lookupFile_writeFile_ne _ _ hdq]
    exact hsum
  have hsum2e : (fs0.writeFile (out ++ [name ++ ".md"])
      (.text (generateMarkdownDoc root fs0 name cfg))).existsPath
      (out ++ ["SUMMARY.md"]) = true := FS.existsPath_of_lookup hsum2
  have houtdir2 : out ∈ (fs0.writeFile (out ++ [name ++ ".md"])
      (.text (generateMarkdownDoc root fs0 name cfg))).dirs := houtdir
  have hupdS : updateSummary (fs0.writeFile (out ++ [name ++ ".md"])
      (.text (generateMarkdownDoc root fs0 name cfg))) out name cfg =
      .ok ((fs0.writeFile (out ++ [name ++ ".md"])
          (.text (generateMarkdownDoc root fs0 name cfg))).writeFile
          (out ++ ["SUMMARY.md"]) (.text S),
        ["📝 Updated SUMMARY.md"]) := by
    simp only [updateSummary, hsum2e, if_true, hsum2, hcont]
    rw [if_pos houtdir2]
  simp only [generateDocs, hmap, hout0, if_true]
  rw [if_pos houtdir, hupdS]

/-! ## Symbolic execution of the category artifact-copy loops. -/

/-- One iteration of a category copy loop, on a healthy state. -/
theorem copyCatArtifact_spec {out root : Path} {fs0 : FS} (kind : String)
    (st : CpState) (rel : List String)
    (herr : st.err = none)
    (hx : OutExt out fs0 st.fs)
    (h1 : prefixB out root = false) (h2 : prefixB root out = false)
    (hart : fs0.existsPath (root ++ [kind] ++ rel) = true →
      ∃ c, fs0.lookupFile (root ++ [kind] ++ rel) = some c)
    (hdir : (out ++ [kind]) ∈ st.fs.dirs) :
    ∃ fs', copyCatArtifact root kind out st rel =
        { fs := fs'
          log := st.log ++ (if fs0.existsPath (root ++ [kind] ++ rel) = true
            then ["  - " ++ renderPath rel] else [])
          err := none } ∧
      OutExt out fs0 fs' ∧ fs'.dirs = st.fs.dirs ∧ st.fs.files <:+ fs'.files ∧
      (∀ q, (fs0.existsPath (root ++ [kind] ++ rel) = true →
          q ≠ out ++ [kind] ++ [basename rel]) →
        fs'.lookupFile q = st.fs.lookupFile q) ∧
      (fs0.existsPath (root ++ [kind] ++ rel) = false → fs' = st.fs) := by
  obtain ⟨sfs, slog, serr⟩ := st
  simp only at herr hx hdir ⊢
  subst herr
  have hroot : root <+: root ++ [kind] ++ rel :=
    ⟨[kind] ++ rel, by rw [List.append_assoc]⟩
  have hguard : sfs.existsPath (root ++ [kind] ++ rel) =
      fs0.existsPath (root ++ [kind] ++ rel) :=
    OutExt.existsPath_root_side hx h1 h2 hroot
  cases hg : fs0.existsPath (root ++ [kind] ++ rel) with
  | false =>
    refine ⟨sfs, ?_, hx, rfl, List.suffix_refl _, fun q _ => rfl, fun _ => rfl⟩
    simp only [copyCatArtifact, hguard, hg]
    simp
  | true =>
    obtain ⟨c, hc⟩ := hart hg
    have hlook : sfs.lookupFile (root ++ [kind] ++ rel) = some c :=
      (OutExt.lookup_root_side hx h1 h2 hroot).trans hc
    have hcont : sfs.dirs.contains (out ++ [kind]) = true := contains_iff_mem.mpr hdir
    refine ⟨sfs.writeFile (out ++ [kind] ++ [basename rel]) c, ?_, ?_, rfl,
      FS.files_suffix_writeFile _ _ c, ?_, ?_⟩
    · simp only [copyCatArtifact, FS.copyFileSync, hguard, hg, hcont, hlook]
      simp
    · have := hx.write_out ([kind] ++ [basename rel]) (by simp) c
      rwa [← List.append_assoc] at this
    · intro q hq
      exact FS.lookupFile_writeFile_ne _ c (hq rfl)
    · intro hcontra; exact Bool.noConfusion hcontra

/-- The whole `forEach` copy loop of `create-fhevm-category.js`, on a
healthy state with the destination subdirectory present. -/
theorem copyCatArtifacts_spec {out root : Path} {fs0 : FS} (kind : String)
    (h1 : prefixB out root = false) (h2 : prefixB root out = false)
    (rels : List (List String)) :
    ∀ (st : CpState), st.err = none → OutExt out fs0 st.fs →
    (out ++ [kind]) ∈ st.fs.dirs →
    (∀ rel ∈ rels, fs0.existsPath (root ++ [kind] ++ rel) = true →
      ∃ c, fs0.lookupFile (root ++ [kind] ++ rel) = some c) →
    (copyCatArtifacts root kind out st rels).err = none ∧
    OutExt out fs0 (copyCatArtifacts root kind out st rels).fs ∧
    (copyCatArtifacts root kind out st rels).fs.dirs = st.fs.dirs ∧
    st.fs.files <:+ (copyCatArtifacts root kind out st rels).fs.files ∧
    (copyCatArtifacts root kind out st rels).log = st.log ++
      rels.filterMap (fun rel =>
        if fs0.existsPath (root ++ [kind] ++ rel) = true
        then some ("  - " ++ renderPath rel) else none) ∧
    (∀ q, (∀ rel ∈ rels, fs0.existsPath (root ++ [kind] ++ rel) = true →
        q ≠ out ++ [kind] ++ [basename rel]) →
      (copyCatArtifacts root kind out st rels).fs.lookupFile q =
        st.fs.lookupFile q) := by
  induction rels with
  | nil =>
    intro st herr hx hdir harts
    refine ⟨herr, hx, rfl, List.suffix_refl _, by simp [copyCatArtifacts], fun q _ => rfl⟩
  | cons rel rest ih =>
    intro st herr hx hdir harts
    obtain ⟨fs', he1, hx1, hdirs1, hsuf1, hframe1, hskip1⟩ :=
      copyCatArtifact_spec kind st rel herr hx h1 h2
        (fun hg => harts rel (List.mem_cons_self rel rest) hg) hdir
    have hstep : copyCatArtifacts root kind out st (rel :: rest) =
        copyCatArtifacts root kind out
          { fs := fs'
            log := st.log ++ (if fs0.existsPath (root ++ [kind] ++ rel) = true
              then ["  - " ++ renderPath rel] else [])
            err := none } rest := by
      simp only [copyCatArtifacts, List.foldl_cons]
      rw [← he1]
    obtain ⟨ihe, ihx, ihdirs, ihsuf, ihlog, ihframe⟩ := ih
      { fs := fs'
        log := st.log ++ (if fs0.existsPath (root ++ [kind] ++ rel) = true
          then ["  - " ++ renderPath rel] else [])
        err := none }
      rfl hx1 (by rw [hdirs1]; exact hdir)
      (fun r hr hg => harts r (List.mem_cons_of_mem rel hr) hg)
    rw [hstep]
    refine ⟨ihe, ihx, by rw [ihdirs, hdirs1], hsuf1.trans ihsuf, ?_, ?_⟩
    · rw [ihlog]
      cases hg : fs0.existsPath (root ++ [kind] ++ rel) with
      | true =>
        have hg' : fs0.existsPath (root ++ kind :: rel) = true := by simpa using hg
        simp [hg, hg', List.filterMap_cons]
      | false =>
        have hg' : fs0.existsPath (root ++ kind :: rel) = false := by simpa using hg
        simp [hg, hg', List.filterMap_cons]
    · intro q hq
      rw [ihframe q (fun r hr hg => hq r (List.mem_cons_of_mem rel hr) hg)]
      exact hframe1 q (fun hg => hq rel (List.mem_cons_self rel rest) hg)

theorem FS.lookupFile_copyDirAs (fs : FS) (src tgt q : Path) :
    (fs.copyDirAs src tgt).lookupFile q = (fs.copyTree src tgt).lookupFile q := rfl

theorem FS.mem_dirs_copyDirAs_of_mem (fs : FS) (src tgt : Path) {d : Path}
    (h : d ∈ fs.dirs) : d ∈ (fs.copyDirAs src tgt).dirs :=
  List.mem_cons_of_mem _ (List.mem_append.mpr (Or.inr h))

theorem FS.files_suffix_copyDirAs (fs : FS) (src tgt : Path) :
    fs.files <:+ (fs.copyDirAs src tgt).files := ⟨_, rfl⟩

/-- The copied-template stage shared by both materializer scripts. -/
theorem template_stage (root : Path) (fs0 : FS) (out : Path) (m : Manifest)
    (hne : out ≠ [])
    (hpkg : fs0.lookupFile (root ++ ["fhevm-hardhat-template", "package.json"]) =
      some (.manifest m))
    (hcdir : root ++ ["fhevm-hardhat-template", "contracts"] ∈ fs0.dirs)
    (htdir : root ++ ["fhevm-hardhat-template", "test"] ∈ fs0.dirs) :
    (fs0.mkdirRec out).hasEntriesUnder (root ++ ["fhevm-hardhat-template"]) = true ∧
    OutExt out fs0
      ((fs0.mkdirRec out).copyTree (root ++ ["fhevm-hardhat-template"]) out) ∧
    out ∈ ((fs0.mkdirRec out).copyTree (root ++ ["fhevm-hardhat-template"]) out).dirs ∧
    out ++ ["contracts"] ∈
      ((fs0.mkdirRec out).copyTree (root ++ ["fhevm-hardhat-template"]) out).dirs ∧
    out ++ ["test"] ∈
      ((fs0.mkdirRec out).copyTree (root ++ ["fhevm-hardhat-template"]) out).dirs ∧
    ((fs0.mkdirRec out).copyTree (root ++ ["fhevm-hardhat-template"]) out).lookupFile
      (out ++ ["package.json"]) = some (.manifest m) := by
  have hlook1 : (fs0.mkdirRec out).lookupFile
      ((root ++ ["fhevm-hardhat-template"]) ++ ["package.json"]) =
      some (.manifest m) := by
    rw [FS.lookupFile_mkdirRec, List.append_assoc]
    simpa using hpkg
  refine ⟨FS.hasEntriesUnder_of_lookup hlook1 (by simp), ?_, ?_, ?_, ?_, ?_⟩
  · have hx1 : OutExt out fs0 (fs0.mkdirRec out) :=
      OutExt.mkdirRec_out OutExt.base
    have := hx1.copyTree_out (root ++ ["fhevm-hardhat-template"]) []
    rwa [List.append_nil] at this
  · exact FS.mem_dirs_copyTree_of_mem _ _ _ (fs0.mem_dirs_mkdirRec_self hne)
  · apply FS.mem_dirs_copyTree_mapped _ _ _
      (d := root ++ ["fhevm-hardhat-template"] ++ ["contracts"])
    · apply FS.mem_dirs_mkdirRec_of_mem
      rwa [List.append_assoc]
    · exact stripPrefixPath_append_self (by simp)
  · apply FS.mem_dirs_copyTree_mapped _ _ _
      (d := root ++ ["fhevm-hardhat-template"] ++ ["test"])
    · apply FS.mem_dirs_mkdirRec_of_mem
      rwa [List.append_assoc]
    · exact stripPrefixPath_append_self (by simp)
  · rw [FS.lookupFile_copyTree_dst _ _ _ ["package.json"] (by simp)]
    rw [FS.lookupFile_mkdirRec, List.append_assoc]
    have hp : fs0.lookupFile (root ++ (["fhevm-hardhat-template"] ++
        ["package.json"])) = some (.manifest m) := by simpa using hpkg
    rw [hp, or_some_left]

/-- `updateCategoryPackageJson` when the manifest is present and parseable. -/
theorem updateCategoryPackageJson_ok (fs : FS) (out : Path) (name : String)
    (cfg : CategoryConfig) (m : Manifest)
    (h : fs.lookupFile (out ++ ["package.json"]) = some (.manifest m)) :
    updateCategoryPackageJson fs out name cfg =
      .ok (fs.writeFile (out ++ ["package.json"]) (.manifest
        { m with
            name := "fhevm-" ++ name ++ "-examples"
            description := cfg.description
            keywords := ["fhevm", "zama", "fhe", "privacy", "blockchain",
                         name, "examples"] })) := by
  simp only [updateCategoryPackageJson]
  rw [h]

/-- Master lemma for a known category name: success, exact output lines,
destination layout, README content, rewritten manifest, and silent
skipping of missing artifact sources. -/
theorem createCategory_known
    (root : Path) (fs0 : FS) (name : String) (cfg : CategoryConfig) (out : Path)
    (m : Manifest)
    (hmap : mapLookup CATEGORIES name = some cfg)
    (hfresh : fs0.existsPath out = false)
    (hne : out ≠ [])
    (h1 : prefixB out root = false) (h2 : prefixB root out = false)
    (hpkg : fs0.lookupFile (root ++ ["fhevm-hardhat-template", "package.json"]) =
      some (.manifest m))
    (hcdir : root ++ ["fhevm-hardhat-template", "contracts"] ∈ fs0.dirs)
    (htdir : root ++ ["fhevm-hardhat-template", "test"] ∈ fs0.dirs)
    (hcarts : ∀ rel ∈ cfg.contracts,
      fs0.existsPath (root ++ ["contracts"] ++ rel) = true →
      ∃ c, fs0.lookupFile (root ++ ["contracts"] ++ rel) = some c)
    (htarts : ∀ rel ∈ cfg.tests,
      fs0.existsPath (root ++ ["test"] ++ rel) = true →
      ∃ c, fs0.lookupFile (root ++ ["test"] ++ rel) = some c) :
    (createCategory root fs0 name out).outcome = .ok ∧
    (createCategory root fs0 name out).stderr = [] ∧
    (createCategory root fs0 name out).stdout =
      ["🚀 Creating " ++ name ++ " category project in " ++ renderPath out] ++
      ["📁 Copying base template..."] ++
      ["📄 Copying " ++ toString cfg.contracts.length ++ " contracts..."] ++
      cfg.contracts.filterMap (fun rel =>
        if fs0.existsPath (root ++ ["contracts"] ++ rel) = true
        then some ("  - " ++ renderPath rel) else none) ++
      ["🧪 Copying " ++ toString cfg.tests.length ++ " tests..."] ++
      cfg.tests.filterMap (fun rel =>
        if fs0.existsPath (root ++ ["test"] ++ rel) = true
        then some ("  - " ++ renderPath rel) else none) ++
      ["✅ Category \x27" ++ name ++ "\x27 project created successfully!",
       "\nNext steps:", "  cd " ++ renderPath out,
       "  npm install --legacy-peer-deps", "  npm run compile", "  npm run test"] ∧
    (out ++ ["contracts"]) ∈ (createCategory root fs0 name out).fs.dirs ∧
    (out ++ ["test"]) ∈ (createCategory root fs0 name out).fs.dirs ∧
    (createCategory root fs0 name out).fs.lookupFile (out ++ ["README.md"]) =
      some (.text (generateCategoryReadme name cfg)) ∧
    (createCategory root fs0 name out).fs.lookupFile (out ++ ["package.json"]) =
      some (.manifest { m with
        name := "fhevm-" ++ name ++ "-examples"
        description := cfg.description
        keywords := ["fhevm", "zama", "fhe", "privacy", "blockchain",
                     name, "examples"] }) ∧
    (∀ rel ∈ cfg.contracts,
      fs0.existsPath (root ++ ["contracts"] ++ rel) = false →
      (∀ rel' ∈ cfg.contracts,
        fs0.existsPath (root ++ ["contracts"] ++ rel') = true →
        basename rel' ≠ basename rel) →
      fs0.lookupFile
        (root ++ ["fhevm-hardhat-template", "contracts", basename rel]) = none →
      fs0.lookupFile (out ++ ["contracts"] ++ [basename rel]) = none →
      (createCategory root fs0 name out).fs.lookupFile
        (out ++ ["contracts"] ++ [basename rel]) = none) ∧
    (∀ rel ∈ cfg.tests,
      fs0.existsPath (root ++ ["test"] ++ rel) = false →
      (∀ rel' ∈ cfg.tests,
        fs0.existsPath (root ++ ["test"] ++ rel') = true →
        basename rel' ≠ basename rel) →
      fs0.lookupFile
        (root ++ ["fhevm-hardhat-template", "test", basename rel]) = none →
      fs0.lookupFile (out ++ ["test"] ++ [basename rel]) = none →
      (createCategory root fs0 name out).fs.lookupFile
        (out ++ ["test"] ++ [basename rel]) = none) := by
  obtain ⟨hent, hx2, hout2, hcd2, htd2, hpkg2⟩ :=
    template_stage root fs0 out m hne hpkg hcdir htdir
  -- contracts loop
  obtain ⟨hCe, hCx, hCd, hCs, hCl, hCf⟩ :=
    copyCatArtifacts_spec "contracts" h1 h2 cfg.contracts
      { fs := (fs0.mkdirRec out).copyTree (root ++ ["fhevm-hardhat-template"]) out
        log := ["🚀 Creating " ++ name ++ " category project in " ++
            renderPath out] ++ ["📁 Copying base template..."] ++
          ["📄 Copying " ++ toString cfg.contracts.length ++ " contracts..."]
        err := none }
      rfl hx2 hcd2 hcarts
  rcases hresC : copyCatArtifacts root "contracts" out
      { fs := (fs0.mkdirRec out).copyTree (root ++ ["fhevm-hardhat-template"]) out
        log := ["🚀 Creating " ++ name ++ " category project in " ++
            renderPath out] ++ ["📁 Copying base template..."] ++
          ["📄 Copying " ++ toString cfg.contracts.length ++ " contracts..."]
        err := none }
      cfg.contracts with ⟨fC, lC, eC⟩
  rw [hresC] at hCe hCx hCd hCs hCl hCf
  have heC : eC = none := hCe
  subst heC
  have hlC : lC = (["🚀 Creating " ++ name ++ " category project in " ++
      renderPath out] ++ ["📁 Copying base template..."] ++
      ["📄 Copying " ++ toString cfg.contracts.length ++ " contracts..."]) ++
      cfg.contracts.filterMap (fun rel =>
        if fs0.existsPath (root ++ ["contracts"] ++ rel) = true
        then some ("  - " ++ renderPath rel) else none) := hCl
  subst hlC
  have hCx' : OutExt out fs0 fC := hCx
  have hCd' : fC.dirs =
      ((fs0.mkdirRec out).copyTree (root ++ ["fhevm-hardhat-template"]) out).dirs := hCd
  have hCf' : ∀ q, (∀ rel ∈ cfg.contracts,
      fs0.existsPath (root ++ ["contracts"] ++ rel) = true →
      q ≠ out ++ ["contracts"] ++ [basename rel]) →
      fC.lookupFile q =
      ((fs0.mkdirRec out).copyTree
        (root ++ ["fhevm-hardhat-template"]) out).lookupFile q := hCf
  -- tests loop
  obtain ⟨hTe, hTx, hTd, hTs, hTl, hTf⟩ :=
    copyCatArtifacts_spec "test" h1 h2 cfg.tests
      { fs := fC
        log := (["🚀 Creating " ++ name ++ " category project in " ++
            renderPath out] ++ ["📁 Copying base template..."] ++
            ["📄 Copying " ++ toString cfg.contracts.length ++ " contracts..."]) ++
          cfg.contracts.filterMap (fun rel =>
            if fs0.existsPath (root ++ ["contracts"] ++ rel) = true
            then some ("  - " ++ renderPath rel) else none) ++
          ["🧪 Copying " ++ toString cfg.tests.length ++ " tests..."]
        err := none }
      rfl hCx' (by rw [hCd']; exact htd2) htarts
  rcases hresT : copyCatArtifacts root "test" out
      { fs := fC
        log := (["🚀 Creating " ++ name ++ " category project in " ++
            renderPath out] ++ ["📁 Copying base template..."] ++
            ["📄 Copying " ++ toString cfg.contracts.length ++ " contracts..."]) ++
          cfg.contracts.filterMap (fun rel =>
            if fs0.existsPath (root ++ ["contracts"] ++ rel) = true
            then some ("  - " ++ renderPath rel) else none) ++
          ["🧪 Copying " ++ toString cfg.tests.length ++ " tests..."]
        err := none }
      cfg.tests with ⟨fT, lT, eT⟩
  rw [hresT] at hTe hTx hTd hTs hTl hTf
  have heT : eT = none := hTe
  subst heT
  have hlT : lT = ((["🚀 Creating " ++ name ++ " category project in " ++
      renderPath out] ++ ["📁 Copying base template..."] ++
      ["📄 Copying " ++ toString cfg.contracts.length ++ " contracts..."]) ++
      cfg.contracts.filterMap (fun rel =>
        if fs0.existsPath (root ++ ["contracts"] ++ rel) = true
        then some ("  - " ++ renderPath rel) else none) ++
      ["🧪 Copying " ++ toString cfg.tests.length ++ " tests..."]) ++
      cfg.tests.filterMap (fun rel =>
        if fs0.existsPath (root ++ ["test"] ++ rel) = true
        then some ("  - " ++ renderPath rel) else none) := hTl
  subst hlT
  have hTx' : OutExt out fs0 fT := hTx
  have hTd' : fT.dirs = fC.dirs := hTd
  have hTs' : fC.files <:+ fT.files := hTs
  have hTf' : ∀ q, (∀ rel ∈ cfg.tests,
      fs0.existsPath (root ++ ["test"] ++ rel) = true →
      q ≠ out ++ ["test"] ++ [basename rel]) →
      fT.lookupFile q = fC.lookupFile q := hTf
  have houtT : out ∈ fT.dirs := by rw [hTd', hCd']; exact hout2
  have hcdT : out ++ ["contracts"] ∈ fT.dirs := by rw [hTd', hCd']; exact hcd2
  have htdT : out ++ ["test"] ∈ fT.dirs := by rw [hTd', hCd']; exact htd2
  -- utils copy (cp -r of the helper directory), three shapes
  have hU : OutExt out fs0
        (if fT.existsPath (root ++ ["test", "utils"]) = true then
          (if fT.existsPath (out ++ ["test", "utils"]) = true then
            fT.copyDirAs (root ++ ["test", "utils"]) (out ++ ["test", "utils"] ++ ["utils"])
          else fT.copyDirAs (root ++ ["test", "utils"]) (out ++ ["test", "utils"]))
        else fT) ∧
      out ∈ (if fT.existsPath (root ++ ["test", "utils"]) = true then
          (if fT.existsPath (out ++ ["test", "utils"]) = true then
            fT.copyDirAs (root ++ ["test", "utils"]) (out ++ ["test", "utils"] ++ ["utils"])
          else fT.copyDirAs (root ++ ["test", "utils"]) (out ++ ["test", "utils"]))
        else fT).dirs ∧
      out ++ ["contracts"] ∈ (if fT.existsPath (root ++ ["test", "utils"]) = true then
          (if fT.existsPath (out ++ ["test", "utils"]) = true then
            fT.copyDirAs (root ++ ["test", "utils"]) (out ++ ["test", "utils"] ++ ["utils"])
          else fT.copyDirAs (root ++ ["test", "utils"]) (out ++ ["test", "utils"]))
        else fT).dirs ∧
      out ++ ["test"] ∈ (if fT.existsPath (root ++ ["test", "utils"]) = true then
          (if fT.existsPath (out ++ ["test", "utils"]) = true then
            fT.copyDirAs (root ++ ["test", "utils"]) (out ++ ["test", "utils"] ++ ["utils"])
          else fT.copyDirAs (root ++ ["test", "utils"]) (out ++ ["test", "utils"]))
        else fT).dirs ∧
      (∀ q, stripPrefixPath (out ++ ["test", "utils"]) q = none →
        stripPrefixPath (out ++ ["test", "utils"] ++ ["utils"]) q = none →
        (if fT.existsPath (root ++ ["test", "utils"]) = true then
          (if fT.existsPath (out ++ ["test", "utils"]) = true then
            fT.copyDirAs (root ++ ["test", "utils"]) (out ++ ["test", "utils"] ++ ["utils"])
          else fT.copyDirAs (root ++ ["test", "utils"]) (out ++ ["test", "utils"]))
        else fT).lookupFile q = fT.lookupFile q) := by
    cases hu1 : fT.existsPath (root ++ ["test", "utils"]) with
    | false =>
      simp only [hu1, Bool.false_eq_true, if_false]
      exact ⟨hTx', houtT, hcdT, htdT, fun q _ _ => by trivial⟩
    | true =>
      simp only [hu1, if_true]
      cases hu2 : fT.existsPath (out ++ ["test", "utils"]) with
      | false =>
        simp only [hu2, Bool.false_eq_true, if_false]
        refine ⟨hTx'.copyDirAs_out (root ++ ["test", "utils"]) ["test", "utils"],
          FS.mem_dirs_copyDirAs_of_mem _ _ _ houtT,
          FS.mem_dirs_copyDirAs_of_mem _ _ _ hcdT,
          FS.mem_dirs_copyDirAs_of_mem _ _ _ htdT, ?_⟩
        intro q hq1 hq2
        rw [FS.lookupFile_copyDirAs, FS.lookupFile_copyTree_not_dst _ _ _ _ hq1]
      | true =>
        simp only [hu2, if_true]
        refine ⟨?_, FS.mem_dirs_copyDirAs_of_mem _ _ _ houtT,
          FS.mem_dirs_copyDirAs_of_mem _ _ _ hcdT,
          FS.mem_dirs_copyDirAs_of_mem _ _ _ htdT, ?_⟩
        · have hx := hTx'.copyDirAs_out (root ++ ["test", "utils"])
            (["test", "utils"] ++ ["utils"])
          rwa [← List.append_assoc] at hx
        · intro q hq1 hq2
          rw [FS.lookupFile_copyDirAs, FS.lookupFile_copyTree_not_dst _ _ _ _ hq2]
  obtain ⟨hUx, hUout, hUcd, hUtd, hUframe⟩ := hU
  -- the manifest survives to the utils stage
  have hpkgT : fT.lookupFile (out ++ ["package.json"]) = some (.manifest m) := by
    rw [hTf' _ (fun rel _ _ => by
        rw [List.append_assoc]; exact append_ne_append (by simp)),
      hCf' _ (fun rel _ _ => by
        rw [List.append_assoc]; exact append_ne_append (by simp))]
    exact hpkg2
  have hpkgU : (if fT.existsPath (root ++ ["test", "utils"]) = true then
        (if fT.existsPath (out ++ ["test", "utils"]) = true then
          fT.copyDirAs (root ++ ["test", "utils"]) (out ++ ["test", "utils"] ++ ["utils"])
        else fT.copyDirAs (root ++ ["test", "utils"]) (out ++ ["test", "utils"]))
      else fT).lookupFile (out ++ ["package.json"]) = some (.manifest m) := by
    rw [hUframe _ (strip_append_none (by intro r hr hc; simp at hc)) ?hs2]
    · exact hpkgT
    case hs2 =>
      rw [List.append_assoc]
      exact strip_append_none (by intro r hr hc; simp at hc)
  have hpkgR : ((if fT.existsPath (root ++ ["test", "utils"]) = true then
        (if fT.existsPath (out ++ ["test", "utils"]) = true then
          fT.copyDirAs (root ++ ["test", "utils"]) (out ++ ["test", "utils"] ++ ["utils"])
        else fT.copyDirAs (root ++ ["test", "utils"]) (out ++ ["test", "utils"]))
      else fT).writeFile (out ++ ["README.md"])
        (.text (generateCategoryReadme name cfg))).lookupFile
      (out ++ ["package.json"]) = some (.manifest m) := by
    rw [FS.lookupFile_writeFile_ne _ _ (append_ne_append (by simp))]
    exact hpkgU
  -- assemble the run
  have hrun : createCategory root fs0 name out =
      { fs := ((if fT.existsPath (root ++ ["test", "utils"]) = true then
            (if fT.existsPath (out ++ ["test", "utils"]) = true then
              fT.copyDirAs (root ++ ["test", "utils"])
                (out ++ ["test", "utils"] ++ ["utils"])
            else fT.copyDirAs (root ++ ["test", "utils"]) (out ++ ["test", "utils"]))
          else fT).writeFile (out ++ ["README.md"])
            (.text (generateCategoryReadme name cfg))).writeFile
          (out ++ ["package.json"]) (.manifest { m with
            name := "fhevm-" ++ name ++ "-examples"
            description := cfg.description
            keywords := ["fhevm", "zama", "fhe", "privacy", "blockchain",
                         name, "examples"] })
        stdout := (((["🚀 Creating " ++ name ++ " category project in " ++
            renderPath out] ++ ["📁 Copying base template..."] ++
            ["📄 Copying " ++ toString cfg.contracts.length ++ " contracts..."]) ++
          cfg.contracts.filterMap (fun rel =>
            if fs0.existsPath (root ++ ["contracts"] ++ rel) = true
            then some ("  - " ++ renderPath rel) else none) ++
          ["🧪 Copying " ++ toString cfg.tests.length ++ " tests..."]) ++
          cfg.tests.filterMap (fun rel =>
            if fs0.existsPath (root ++ ["test"] ++ rel) = true
            then some ("  - " ++ renderPath rel) else none)) ++
          ["✅ Category \x27" ++ name ++ "\x27 project created successfully!",
           "\nNext steps:", "  cd " ++ renderPath out,
           "  npm install --legacy-peer-deps", "  npm run compile",
           "  npm run test"]
        stderr := []
        outcome := .ok } := by
    simp only [createCategory, hmap, hfresh, Bool.false_eq_true, if_false, hent,
      if_true, hresC, hresT]
    rw [if_pos ?hmemU]
    · rw [updateCategoryPackageJson_ok _ _ _ _ _ hpkgR]
    case hmemU => exact hUout
  rw [hrun]
  refine ⟨rfl, rfl, by simp [List.append_assoc], ?_, ?_, ?_, ?_, ?_, ?_⟩
  · exact hUcd
  · exact hUtd
  · rw [FS.lookupFile_writeFile_ne _ _ (append_ne_append (by simp)),
        FS.lookupFile_writeFile_self]
  · rw [FS.lookupFile_writeFile_self]
  · intro rel hrel hmiss huniq htplsh hdstn
    have hqCP : (out ++ ["contracts"] ++ [basename rel]) ≠
        out ++ ["package.json"] := by
      rw [List.append_assoc]; exact append_ne_append (by simp)
    have hqCR : (out ++ ["contracts"] ++ [basename rel]) ≠
        out ++ ["README.md"] := by
      rw [List.append_assoc]; exact append_ne_append (by simp)
    rw [FS.lookupFile_writeFile_ne _ _ hqCP,
        FS.lookupFile_writeFile_ne _ _ hqCR]
    rw [hUframe _ ?hsa ?hsb]
    case hsa =>
      rw [List.append_assoc]
      exact strip_append_none (by intro r hr hc; simp at hc)
    case hsb =>
      rw [List.append_assoc, List.append_assoc]
      exact strip_append_none (by intro r hr hc; simp at hc)
    rw [hTf' _ (fun rel' _ _ => by
        rw [List.append_assoc, List.append_assoc]
        exact append_ne_append (by simp))]
    rw [hCf' _ ?hneq]
    case hneq =>
      intro rel' hrel' hex'
      have hb : basename rel' ≠ basename rel := huniq rel' hrel' hex'
      rw [List.append_assoc, List.append_assoc]
      apply append_ne_append
      intro hc
      have : basename rel = basename rel' := by
        have := List.append_cancel_left (hc : ["contracts"] ++ [basename rel] =
          ["contracts"] ++ [basename rel'])
        injection this
      exact hb this.symm
    rw [List.append_assoc]
    rw [FS.lookupFile_copyTree_dst _ _ _ (["contracts"] ++ [basename rel]) (by simp)]
    simp only [FS.lookupFile_mkdirRec]
    have htpl' : fs0.lookupFile ((root ++ ["fhevm-hardhat-template"]) ++
        (["contracts"] ++ [basename rel])) = none := by
      have he : (root ++ ["fhevm-hardhat-template"]) ++
          (["contracts"] ++ [basename rel]) =
          root ++ ["fhevm-hardhat-template", "contracts", basename rel] := by simp
      rw [he]; exact htplsh
    have hdst' : fs0.lookupFile (out ++ (["contracts"] ++ [basename rel])) = none := by
      rw [← List.append_assoc]; exact hdstn
    rw [htpl', hdst']
    rfl
  · intro rel hrel hmiss huniq htplsh hdstn
    have hqTP : (out ++ ["test"] ++ [basename rel]) ≠
        out ++ ["package.json"] := by
      rw [List.append_assoc]; exact append_ne_append (by simp)
    have hqTR : (out ++ ["test"] ++ [basename rel]) ≠
        out ++ ["README.md"] := by
      rw [List.append_assoc]; exact append_ne_append (by simp)
    rw [FS.lookupFile_writeFile_ne _ _ hqTP,
        FS.lookupFile_writeFile_ne _ _ hqTR]
    rw [hUframe _ ?hsc ?hsd]
    case hsc =>
      rw [List.append_assoc]
      apply strip_append_none
      intro r hr hc
      cases r with
      | nil => exact hr rfl
      | cons a as =>
        injection hc with hc1 hc2
        injection hc2 with hc3 hc4
        exact List.noConfusion hc4
    case hsd =>
      rw [List.append_assoc, List.append_assoc]
      apply strip_append_none
      intro r hr hc
      injection hc with hc1 hc2
      injection hc2 with hc3 hc4
      exact List.noConfusion hc4
    rw [hTf' _ ?hneq2]
    case hneq2 =>
      intro rel' hrel' hex'
      have hb : basename rel' ≠ basename rel := huniq rel' hrel' hex'
      rw [List.append_assoc, List.append_assoc]
      apply append_ne_append
      intro hc
      have : basename rel = basename rel' := by
        have := List.append_cancel_left (hc : ["test"] ++ [basename rel] =
          ["test"] ++ [basename rel'])
        injection this
      exact hb this.symm
    rw [hCf' _ (fun rel' _ _ => by
        rw [List.append_assoc, List.append_assoc]
        exact append_ne_append (by simp))]
    rw [List.append_assoc]
    rw [FS.lookupFile_copyTree_dst _ _ _ (["test"] ++ [basename rel]) (by simp)]
    simp only [FS.lookupFile_mkdirRec]
    have htpl2 : fs0.lookupFile ((root ++ ["fhevm-hardhat-template"]) ++
        (["test"] ++ [basename rel])) = none := by
      have he : (root ++ ["fhevm-hardhat-template"]) ++
          (["test"] ++ [basename rel]) =
          root ++ ["fhevm-hardhat-template", "test", basename rel] := by simp
      rw [he]; exact htplsh
    have hdst2 : fs0.lookupFile (out ++ (["test"] ++ [basename rel])) = none := by
      rw [← List.append_assoc]; exact hdstn
    rw [htpl2, hdst2]
    rfl

/-! ## Early-exit and fatal branches of the materializers. -/

/-- Unknown example name: error message to stderr, catalog listing to
stdout, exit code 1, filesystem untouched. -/
theorem createExample_unknown (root : Path) (fs0 : FS) (name : String)
    (out : Path) (hmap : mapLookup EXAMPLES_MAP name = none) :
    createExample root fs0 name out =
      { fs := fs0
        stdout := ["Available examples: " ++
          String.intercalate ", " (EXAMPLES_MAP.map (fun e => e.1))]
        stderr := ["❌ Example \x27" ++ name ++ "\x27 not found"]
        outcome := .exited 1 } := by
  simp only [createExample, hmap]

/-- Unknown category name, analogous. -/
theorem createCategory_unknown (root : Path) (fs0 : FS) (name : String)
    (out : Path) (hmap : mapLookup CATEGORIES name = none) :
    createCategory root fs0 name out =
      { fs := fs0
        stdout := ["Available categories: " ++
          String.intercalate ", " (CATEGORIES.map (fun e => e.1))]
        stderr := ["❌ Category \x27" ++ name ++ "\x27 not found"]
        outcome := .exited 1 } := by
  simp only [createCategory, hmap]

theorem hasEntriesUnder_mkdirRec_sep {fs0 : FS} {root out : Path}
    (w : List String) (h2 : prefixB root out = false)
    (h : fs0.hasEntriesUnder (root ++ w) = false) :
    (fs0.mkdirRec out).hasEntriesUnder (root ++ w) = false := by
  simp only [FS.hasEntriesUnder, FS.files_mkdirRec, FS.dirs_mkdirRec,
    Bool.or_eq_false_iff] at h ⊢
  obtain ⟨hf, hd⟩ := h
  refine ⟨hf, ?_⟩
  rw [List.any_append, hd, Bool.or_false]
  rw [List.any_eq_false]
  intro d hdm
  cases hs : stripPrefixPath (root ++ w) d with
  | none => simp
  | some r =>
    obtain ⟨hde, hr⟩ := stripPrefixPath_eq_some.mp hs
    obtain ⟨-, hdo⟩ := of_mem_prefixesOf hdm
    have hrd : root <+: d := ⟨w ++ r, by rw [← List.append_assoc, ← hde]⟩
    have hro : root <+: out := hrd.trans hdo
    rw [← prefixB_iff] at hro
    rw [hro] at h2
    exact Bool.noConfusion h2

/-- Base template directory absent (the glob matches nothing): the run dies
with an uncaught `execSync` error, but only after the destination directory
has already been created; no file is written. -/
theorem createExample_no_template (root : Path) (fs0 : FS) (name : String)
    (cfg : ExampleConfig) (out : Path)
    (hmap : mapLookup EXAMPLES_MAP name = some cfg)
    (hfresh : fs0.existsPath out = false)
    (h2 : prefixB root out = false)
    (hent : fs0.hasEntriesUnder (root ++ ["fhevm-hardhat-template"]) = false) :
    createExample root fs0 name out =
      { fs := fs0.mkdirRec out
        stdout := ["🚀 Creating " ++ name ++ " example in " ++ renderPath out] ++
          ["📁 Copying base template..."]
        stderr := []
        outcome := .fatal "cp: no match" } := by
  have hent' := hasEntriesUnder_mkdirRec_sep
    ["fhevm-hardhat-template"] h2 hent
  simp only [createExample, hmap, hfresh, Bool.false_eq_true, if_false, hent']

/-- Base template directory absent, category variant. -/
theorem createCategory_no_template (root : Path) (fs0 : FS) (name : String)
    (cfg : CategoryConfig) (out : Path)
    (hmap : mapLookup CATEGORIES name = some cfg)
    (hfresh : fs0.existsPath out = false)
    (h2 : prefixB root out = false)
    (hent : fs0.hasEntriesUnder (root ++ ["fhevm-hardhat-template"]) = false) :
    createCategory root fs0 name out =
      { fs := fs0.mkdirRec out
        stdout := ["🚀 Creating " ++ name ++ " category project in " ++
          renderPath out] ++ ["📁 Copying base template..."]
        stderr := []
        outcome := .fatal "cp: no match" } := by
  have hent' := hasEntriesUnder_mkdirRec_sep
    ["fhevm-hardhat-template"] h2 hent
  simp only [createCategory, hmap, hfresh, Bool.false_eq_true, if_false, hent']

/-! ## The precise write sets of the two materializers. -/

/-- Every file path `createExample` may write for `cfg` into `out`:
the template replica plus the two artifact targets, the README and the
manifest. -/
def exampleWriteSet (root : Path) (fs0 : FS) (cfg : ExampleConfig)
    (out : Path) : List Path :=
  (fs0.files.filterMap (fun pc =>
    (stripPrefixPath (root ++ ["fhevm-hardhat-template"]) pc.1).map
      (fun r => out ++ r))) ++
  [out ++ ["contracts"] ++ [basename cfg.contract],
   out ++ ["test"] ++ [basename cfg.test],
   out ++ ["README.md"], out ++ ["package.json"]]

/-- Every file path `createCategory` may write for `cfg` into `out`. -/
def categoryWriteSet (root : Path) (fs0 : FS) (cfg : CategoryConfig)
    (out : Path) : List Path :=
  (fs0.files.filterMap (fun pc =>
    (stripPrefixPath (root ++ ["fhevm-hardhat-template"]) pc.1).map
      (fun r => out ++ r))) ++
  cfg.contracts.map (fun rel => out ++ ["contracts"] ++ [basename rel]) ++
  cfg.tests.map (fun rel => out ++ ["test"] ++ [basename rel]) ++
  ((fs0.files.map (fun pc => pc.1) ++
    ((fs0.files.filterMap (fun pc =>
      (stripPrefixPath (root ++ ["fhevm-hardhat-template"]) pc.1).map
        (fun r => out ++ r))) ++
     cfg.contracts.map (fun rel => out ++ ["contracts"] ++ [basename rel]) ++
     cfg.tests.map (fun rel => out ++ ["test"] ++ [basename rel]))).filterMap
    (fun k => (stripPrefixPath (root ++ ["test", "utils"]) k).map
      (fun r => out ++ ["test", "utils"] ++ r))) ++
  ((fs0.files.map (fun pc => pc.1) ++
    ((fs0.files.filterMap (fun pc =>
      (stripPrefixPath (root ++ ["fhevm-hardhat-template"]) pc.1).map
        (fun r => out ++ r))) ++
     cfg.contracts.map (fun rel => out ++ ["contracts"] ++ [basename rel]) ++
     cfg.tests.map (fun rel => out ++ ["test"] ++ [basename rel]))).filterMap
    (fun k => (stripPrefixPath (root ++ ["test", "utils"]) k).map
      (fun r => out ++ ["test", "utils"] ++ ["utils"] ++ r))) ++
  [out ++ ["README.md"], out ++ ["package.json"]]

theorem copyIfExists_writes {w : List Path} {fs0 fs : FS} (src dstDir : Path)
    (fname : String) (logLine : String)
    (h : WritesWithin w fs0 fs) (htgt : dstDir ++ [fname] ∈ w) :
    ∀ fs' lg, copyIfExists fs src dstDir fname logLine = .ok (fs', lg) →
      WritesWithin w fs0 fs' := by
  intro fs' lg he
  unfold copyIfExists FS.copyFileSync at he
  by_cases hex : fs.existsPath src = true
  · rw [if_pos hex] at he
    by_cases hc : fs.dirs.contains dstDir = true
    · rw [if_pos hc] at he
      cases hl : fs.lookupFile src with
      | some c =>
        rw [hl] at he
        simp only [Except.ok.injEq, Prod.mk.injEq] at he
        rw [← he.1]
        exact h.write_w htgt c
      | none => rw [hl] at he; exact Except.noConfusion he
    · rw [if_neg hc] at he; exact Except.noConfusion he
  · rw [if_neg hex] at he
    simp only [Except.ok.injEq, Prod.mk.injEq] at he
    rw [← he.1]
    exact h

theorem updatePackageJson_writes {w : List Path} {fs0 fs : FS} (out : Path)
    (name : String) (cfg : ExampleConfig)
    (h : WritesWithin w fs0 fs) (hp : out ++ ["package.json"] ∈ w) :
    ∀ fs', updatePackageJson fs out name cfg = .ok fs' →
      WritesWithin w fs0 fs' := by
  intro fs' he
  simp only [updatePackageJson] at he
  cases hl : fs.lookupFile (out ++ ["package.json"]) with
  | some c =>
    cases c with
    | text s =>
      rw [hl] at he; exact Except.noConfusion he
    | manifest mm =>
      rw [hl] at he
      simp only [Except.ok.injEq] at he
      rw [← he]
      exact h.write_w hp _
  | none => rw [hl] at he; exact Except.noConfusion he

theorem updateCategoryPackageJson_writes {w : List Path} {fs0 fs : FS}
    (out : Path) (name : String) (cfg : CategoryConfig)
    (h : WritesWithin w fs0 fs) (hp : out ++ ["package.json"] ∈ w) :
    ∀ fs', updateCategoryPackageJson fs out name cfg = .ok fs' →
      WritesWithin w fs0 fs' := by
  intro fs' he
  simp only [updateCategoryPackageJson] at he
  cases hl : fs.lookupFile (out ++ ["package.json"]) with
  | some c =>
    cases c with
    | text s =>
      rw [hl] at he; exact Except.noConfusion he
    | manifest mm =>
      rw [hl] at he
      simp only [Except.ok.injEq] at he
      rw [← he]
      exact h.write_w hp _
  | none => rw [hl] at he; exact Except.noConfusion he

theorem copyCatArtifact_writes {w : List Path} {fs0 : FS} (root : Path)
    (kind : String) (out : Path) (st : CpState) (rel : List String)
    (h : WritesWithin w fs0 st.fs) (htgt : out ++ [kind] ++ [basename rel] ∈ w) :
    WritesWithin w fs0 (copyCatArtifact root kind out st rel).fs := by
  unfold copyCatArtifact FS.copyFileSync
  cases st.err with
  | some e => exact h
  | none =>
    by_cases hex : st.fs.existsPath (root ++ [kind] ++ rel) = true
    · rw [if_pos hex]
      by_cases hc : st.fs.dirs.contains (out ++ [kind]) = true
      · rw [if_pos hc]
        cases hl : st.fs.lookupFile (root ++ [kind] ++ rel) with
        | some c => exact h.write_w htgt c
        | none => exact h
      · rw [if_neg hc]; exact h
    · rw [if_neg hex]; exact h

theorem copyCatArtifacts_writes {w : List Path} {fs0 : FS} (root : Path)
    (kind : String) (out : Path) (rels : List (List String)) :
    ∀ st : CpState, WritesWithin w fs0 st.fs →
    (∀ rel ∈ rels, out ++ [kind] ++ [basename rel] ∈ w) →
    WritesWithin w fs0 (copyCatArtifacts root kind out st rels).fs := by
  induction rels with
  | nil => intro st h _; exact h
  | cons rel rest ih =>
    intro st h htgts
    have hstep : copyCatArtifacts root kind out st (rel :: rest) =
        copyCatArtifacts root kind out (copyCatArtifact root kind out st rel) rest := by
      simp only [copyCatArtifacts, List.foldl_cons]
    rw [hstep]
    exact ih _ (copyCatArtifact_writes root kind out st rel h
        (htgts rel (List.mem_cons_self rel rest)))
      (fun r hr => htgts r (List.mem_cons_of_mem rel hr))

/-- Whatever branch a `createExample` run takes, every file it writes lies
in `exampleWriteSet`. -/
theorem createExample_writes (root : Path) (fs0 : FS) (name : String)
    (cfg : ExampleConfig) (out : Path)
    (hmap : mapLookup EXAMPLES_MAP name = some cfg) :
    WritesWithin (exampleWriteSet root fs0 cfg out) fs0
      (createExample root fs0 name out).fs := by
  have htgtC : out ++ ["contracts"] ++ [basename cfg.contract] ∈
      exampleWriteSet root fs0 cfg out := by
    apply List.mem_append.mpr; right; simp
  have htgtT : out ++ ["test"] ++ [basename cfg.test] ∈
      exampleWriteSet root fs0 cfg out := by
    apply List.mem_append.mpr; right; simp
  have hR : out ++ ["README.md"] ∈ exampleWriteSet root fs0 cfg out := by
    apply List.mem_append.mpr; right; simp
  have hP : out ++ ["package.json"] ∈ exampleWriteSet root fs0 cfg out := by
    apply List.mem_append.mpr; right; simp
  simp only [createExample, hmap]
  generalize hfs1 : (if fs0.existsPath out = true then fs0 else fs0.mkdirRec out) = fs1
  have hfiles1 : fs1.files = fs0.files := by rw [← hfs1]; split <;> rfl
  have h1 : WritesWithin (exampleWriteSet root fs0 cfg out) fs0 fs1 := by
    rw [← hfs1]
    split
    · exact WritesWithin.start
    · exact WritesWithin.mkdirRec out WritesWithin.start
  have h2 : WritesWithin (exampleWriteSet root fs0 cfg out) fs0
      (fs1.copyTree (root ++ ["fhevm-hardhat-template"]) out) := by
    apply WritesWithin.copyTree h1
    rw [hfiles1]
    intro pc hpc r hr
    apply List.mem_append.mpr
    left
    exact List.mem_filterMap.mpr ⟨pc, hpc, by rw [hr]; rfl⟩
  split
  case isFalse => exact h1
  case isTrue hent =>
    cases heC : copyIfExists (fs1.copyTree (root ++ ["fhevm-hardhat-template"]) out)
        (root ++ ["contracts"] ++ cfg.contract) (out ++ ["contracts"])
        (basename cfg.contract)
        ("📄 Copying contract: " ++ renderPath cfg.contract) with
    | error e => simp only [heC]; exact h2
    | ok p =>
      obtain ⟨fs3, lg2⟩ := p
      have h3 := copyIfExists_writes _ _ _ _ h2 htgtC fs3 lg2 heC
      simp only [heC]
      cases heT : copyIfExists fs3 (root ++ ["test"] ++ cfg.test)
          (out ++ ["test"]) (basename cfg.test)
          ("🧪 Copying test: " ++ renderPath cfg.test) with
      | error e => simp only [heT]; exact h3
      | ok p2 =>
        obtain ⟨fs4, lg3⟩ := p2
        have h4 := copyIfExists_writes _ _ _ _ h3 htgtT fs4 lg3 heT
        simp only [heT]
        split
        case isFalse => exact h4
        case isTrue hmem =>
          have h5 := h4.write_w hR (.text (generateReadme name cfg))
          cases hupd : updatePackageJson
              (fs4.writeFile (out ++ ["README.md"])
                (.text (generateReadme name cfg))) out name cfg with
          | error e => simp only [hupd]; exact h5
          | ok fs6 =>
            simp only [hupd]
            exact updatePackageJson_writes out name cfg h5 hP fs6 hupd

/-- Whatever branch a `createCategory` run takes, every file it writes lies
in `categoryWriteSet`. -/
theorem createCategory_writes (root : Path) (fs0 : FS) (name : String)
    (cfg : CategoryConfig) (out : Path)
    (hmap : mapLookup CATEGORIES name = some cfg) :
    WritesWithin (categoryWriteSet root fs0 cfg out) fs0
      (createCategory root fs0 name out).fs := by
  have hsubBase : ∀ p ∈ ((fs0.files.filterMap (fun pc =>
        (stripPrefixPath (root ++ ["fhevm-hardhat-template"]) pc.1).map
          (fun r => out ++ r))) ++
      cfg.contracts.map (fun rel => out ++ ["contracts"] ++ [basename rel]) ++
      cfg.tests.map (fun rel => out ++ ["test"] ++ [basename rel])),
      p ∈ categoryWriteSet root fs0 cfg out := by
    intro p hp
    unfold categoryWriteSet
    exact List.mem_append.mpr (Or.inl (List.mem_append.mpr (Or.inl
      (List.mem_append.mpr (Or.inl hp)))))
  have hR : out ++ ["README.md"] ∈ categoryWriteSet root fs0 cfg out := by
    unfold categoryWriteSet
    apply List.mem_append.mpr; right; simp
  have hP : out ++ ["package.json"] ∈ categoryWriteSet root fs0 cfg out := by
    unfold categoryWriteSet
    apply List.mem_append.mpr; right; simp
  simp only [createCategory, hmap]
  generalize hfs1 : (if fs0.existsPath out = true then fs0 else fs0.mkdirRec out) = fs1
  have hfiles1 : fs1.files = fs0.files := by rw [← hfs1]; split <;> rfl
  have h1 : WritesWithin ((fs0.files.filterMap (fun pc =>
        (stripPrefixPath (root ++ ["fhevm-hardhat-template"]) pc.1).map
          (fun r => out ++ r))) ++
      cfg.contracts.map (fun rel => out ++ ["contracts"] ++ [basename rel]) ++
      cfg.tests.map (fun rel => out ++ ["test"] ++ [basename rel])) fs0 fs1 := by
    rw [← hfs1]
    split
    · exact WritesWithin.start
    · exact WritesWithin.mkdirRec out WritesWithin.start
  have h2 : WritesWithin ((fs0.files.filterMap (fun pc =>
        (stripPrefixPath (root ++ ["fhevm-hardhat-template"]) pc.1).map
          (fun r => out ++ r))) ++
      cfg.contracts.map (fun rel => out ++ ["contracts"] ++ [basename rel]) ++
      cfg.tests.map (fun rel => out ++ ["test"] ++ [basename rel])) fs0
      (fs1.copyTree (root ++ ["fhevm-hardhat-template"]) out) := by
    apply WritesWithin.copyTree h1
    rw [hfiles1]
    intro pc hpc r hr
    apply List.mem_append.mpr
    left
    apply List.mem_append.mpr
    left
    exact List.mem_filterMap.mpr ⟨pc, hpc, by rw [hr]; rfl⟩
  split
  case isFalse => exact h1.mono hsubBase
  case isTrue hent =>
    generalize hstC : copyCatArtifacts root "contracts" out
      { fs := fs1.copyTree (root ++ ["fhevm-hardhat-template"]) out
        log := ["🚀 Creating " ++ name ++ " category project in " ++
          renderPath out] ++ ["📁 Copying base template..."] ++
          ["📄 Copying " ++ toString cfg.contracts.length ++ " contracts..."]
        err := none } cfg.contracts = stC
    have hC : WritesWithin ((fs0.files.filterMap (fun pc =>
          (stripPrefixPath (root ++ ["fhevm-hardhat-template"]) pc.1).map
            (fun r => out ++ r))) ++
        cfg.contracts.map (fun rel => out ++ ["contracts"] ++ [basename rel]) ++
        cfg.tests.map (fun rel => out ++ ["test"] ++ [basename rel])) fs0 stC.fs := by
      rw [← hstC]
      exact copyCatArtifacts_writes root "contracts" out cfg.contracts _ h2
        (fun rel hr => List.mem_append.mpr (Or.inl (List.mem_append.mpr
          (Or.inr (List.mem_map_of_mem _ hr)))))
    cases hEc : stC.err with
    | some e => simp only [hEc]; exact hC.mono hsubBase
    | none =>
      simp only [hEc]
      generalize hstT : copyCatArtifacts root "test" out
        { fs := stC.fs
          log := stC.log ++
            ["🧪 Copying " ++ toString cfg.tests.length ++ " tests..."]
          err := none } cfg.tests = stT
      have hT : WritesWithin ((fs0.files.filterMap (fun pc =>
            (stripPrefixPath (root ++ ["fhevm-hardhat-template"]) pc.1).map
              (fun r => out ++ r))) ++
          cfg.contracts.map (fun rel => out ++ ["contracts"] ++ [basename rel]) ++
          cfg.tests.map (fun rel => out ++ ["test"] ++ [basename rel])) fs0 stT.fs := by
        rw [← hstT]
        exact copyCatArtifacts_writes root "test" out cfg.tests _ hC
          (fun rel hr => List.mem_append.mpr (Or.inr (List.mem_map_of_mem _ hr)))
      cases hEt : stT.err with
      | some e => simp only [hEt]; exact hT.mono hsubBase
      | none =>
        simp only [hEt]
        have hkeys : ∀ pc ∈ stT.fs.files,
            pc.1 ∈ fs0.files.map (fun pc => pc.1) ++
              ((fs0.files.filterMap (fun pc =>
                (stripPrefixPath (root ++ ["fhevm-hardhat-template"]) pc.1).map
                  (fun r => out ++ r))) ++
               cfg.contracts.map
                 (fun rel => out ++ ["contracts"] ++ [basename rel]) ++
               cfg.tests.map (fun rel => out ++ ["test"] ++ [basename rel])) := by
          obtain ⟨nf, hfe, hfk⟩ := hT
          intro pc hpc
          rw [hfe] at hpc
          rcases List.mem_append.mp hpc with hm | hm
          · exact List.mem_append.mpr (Or.inr (hfk pc hm))
          · exact List.mem_append.mpr (Or.inl (List.mem_map_of_mem _ hm))
        have hUtils : WritesWithin (categoryWriteSet root fs0 cfg out) fs0
            (if stT.fs.existsPath (root ++ ["test", "utils"]) = true then
              (if stT.fs.existsPath (out ++ ["test", "utils"]) = true then
                stT.fs.copyDirAs (root ++ ["test", "utils"])
                  (out ++ ["test", "utils"] ++ ["utils"])
              else stT.fs.copyDirAs (root ++ ["test", "utils"])
                (out ++ ["test", "utils"]))
            else stT.fs) := by
          split
          · split
            · apply WritesWithin.copyDirAs (hT.mono hsubBase)
              intro pc hpc r hr
              unfold categoryWriteSet
              apply List.mem_append.mpr; left
              apply List.mem_append.mpr; right
              exact List.mem_filterMap.mpr ⟨pc.1, hkeys pc hpc, by rw [hr]; rfl⟩
            · apply WritesWithin.copyDirAs (hT.mono hsubBase)
              intro pc hpc r hr
              unfold categoryWriteSet
              apply List.mem_append.mpr; left
              apply List.mem_append.mpr; left
              apply List.mem_append.mpr; right
              exact List.mem_filterMap.mpr ⟨pc.1, hkeys pc hpc, by rw [hr]; rfl⟩
          · exact hT.mono hsubBase
        generalize hfs3 : (if stT.fs.existsPath (root ++ ["test", "utils"]) = true then
            (if stT.fs.existsPath (out ++ ["test", "utils"]) = true then
              stT.fs.copyDirAs (root ++ ["test", "utils"])
                (out ++ ["test", "utils"] ++ ["utils"])
            else stT.fs.copyDirAs (root ++ ["test", "utils"])
              (out ++ ["test", "utils"]))
          else stT.fs) = fs3 at hUtils ⊢
        split
        case isFalse => exact hUtils
        case isTrue hmem =>
          have h5 := hUtils.write_w hR (.text (generateCategoryReadme name cfg))
          cases hupd : updateCategoryPackageJson
              (fs3.writeFile (out ++ ["README.md"])
                (.text (generateCategoryReadme name cfg))) out name cfg with
          | error e => simp only [hupd]; exact h5
          | ok fs6 =>
            simp only [hupd]
            exact updateCategoryPackageJson_writes out name cfg h5 hP fs6 hupd

/-- Lexicographic order on character lists (true strict less-than). -/
def lexLtChars : List Char → List Char → Bool
  | [], [] => false
  | [], _ :: _ => true
  | _ :: _, [] => false
  | a :: as, b :: bs => if a < b then true else if b < a then false else lexLtChars as bs

/-- Lexicographic strict order on strings, used to state that the printed
identifier listings happen to be sorted. -/
def strLtB (a b : String) : Bool := lexLtChars a.data b.data

/-! ## Catalog enumeration. -/

/-- Lookup in a two-entry static table succeeds only on its two keys. -/
theorem mapLookup_two {α : Type} (k1 k2 : String) (v1 v2 : α) {name : String}
    {cfg : α} (h : mapLookup [(k1, v1), (k2, v2)] name = some cfg) :
    (name = k1 ∧ cfg = v1) ∨ (name = k2 ∧ cfg = v2) := by
  simp only [mapLookup, List.find?] at h
  cases h1 : (k1 == name) with
  | true =>
    rw [h1] at h
    simp only [Option.map_some', Option.some.injEq] at h
    exact Or.inl ⟨(beq_iff_eq.mp h1).symm, h.symm⟩
  | false =>
    rw [h1] at h
    cases h2 : (k2 == name) with
    | true =>
      rw [h2] at h
      simp only [Option.map_some', Option.some.injEq] at h
      exact Or.inr ⟨(beq_iff_eq.mp h2).symm, h.symm⟩
    | false =>
      rw [h2] at h
      simp at h

/-! ## Concrete fixtures used by witnesses and counterexamples: a small
repository tree with the base template, both artifact pairs and the test
helper directory, plus an unrelated pre-existing file. -/

def demoRoot : Path := ["repo"]

def demoOut : Path := ["sandbox", "proj"]

def demoManifest : Manifest :=
  { name := "fhevm-hardhat-template"
    description := "template"
    keywords := ["template"]
    rest := [("version", "1.0.0")] }

def demoFS : FS :=
  { files := [(["repo", "fhevm-hardhat-template", "package.json"],
        .manifest demoManifest),
      (["repo", "fhevm-hardhat-template", "hardhat.config.ts"], .text "config"),
      (["repo", "contracts", "basic", "FHECounter.sol"], .text "contract FHECounter"),
      (["repo", "contracts", "auctions", "BlindAuction.sol"],
        .text "contract BlindAuction"),
      (["repo", "test", "basic", "FHECounter.ts"], .text "counter tests"),
      (["repo", "test", "auctions", "BlindAuction.ts"], .text "auction tests"),
      (["repo", "test", "utils", "fhevm.ts"], .text "helpers"),
      (["sandbox", "junk.txt"], .text "unrelated")]
    dirs := [["repo"], ["repo", "fhevm-hardhat-template"],
      ["repo", "fhevm-hardhat-template", "contracts"],
      ["repo", "fhevm-hardhat-template", "test"],
      ["repo", "fhevm-hardhat-template", "deploy"],
      ["repo", "contracts"], ["repo", "contracts", "basic"],
      ["repo", "contracts", "auctions"],
      ["repo", "test"], ["repo", "test", "basic"], ["repo", "test", "auctions"],
      ["repo", "test", "utils"], ["sandbox"]] }

/-- Like `demoFS` but with the `fhe-counter` contract source deleted. -/
def demoFSnoContract : FS :=
  { files := [(["repo", "fhevm-hardhat-template", "package.json"],
        .manifest demoManifest),
      (["repo", "fhevm-hardhat-template", "hardhat.config.ts"], .text "config"),
      (["repo", "test", "basic", "FHECounter.ts"], .text "counter tests"),
      (["sandbox", "junk.txt"], .text "unrelated")]
    dirs := [["repo"], ["repo", "fhevm-hardhat-template"],
      ["repo", "fhevm-hardhat-template", "contracts"],
      ["repo", "fhevm-hardhat-template", "test"],
      ["repo", "contracts"], ["repo", "test"], ["repo", "test", "basic"],
      ["sandbox"]] }

/-- Like `demoFS` but with the `fhe-counter` test source deleted. -/
def demoFSnoTest : FS :=
  { files := [(["repo", "fhevm-hardhat-template", "package.json"],
        .manifest demoManifest),
      (["repo", "fhevm-hardhat-template", "hardhat.config.ts"], .text "config"),
      (["repo", "contracts", "basic", "FHECounter.sol"], .text "contract FHECounter"),
      (["sandbox", "junk.txt"], .text "unrelated")]
    dirs := [["repo"], ["repo", "fhevm-hardhat-template"],
      ["repo", "fhevm-hardhat-template", "contracts"],
      ["repo", "fhevm-hardhat-template", "test"],
      ["repo", "contracts"], ["repo", "contracts", "basic"], ["repo", "test"],
      ["sandbox"]] }

/-- A tree in which the base template directory is absent entirely. -/
def demoFSnoTemplate : FS :=
  { files := [(["repo", "contracts", "basic", "FHECounter.sol"],
        .text "contract FHECounter")]
    dirs := [["repo"], ["repo", "contracts"], ["sandbox"]] }

/-! ## Claim C10. -/

/-- Claim C10: for every identifier not registered in the docs
configuration, doc generation exits with a non-zero status before any
filesystem mutation — the returned filesystem is exactly the initial one
(no output directory, no document, no SUMMARY change). -/
theorem c10_unknown_docs (root : Path) (fs0 : FS) (name : String) (out : Path)
    (hmap : mapLookup DOCS_CONFIG name = none) :
    (generateDocs root fs0 name out).outcome = .exited 1 ∧
    (1 : Nat) ≠ 0 ∧
    (generateDocs root fs0 name out).fs = fs0 ∧
    (generateDocs root fs0 name out).stderr =
      ["❌ Documentation config for \x27" ++ name ++ "\x27 not found"] := by
  rw [generateDocs_unknown root fs0 name out hmap]
  exact ⟨rfl, by decide, rfl, rfl⟩

/-- Witness for C10 at the concrete unknown identifier `does-not-exist`. -/
theorem c10_unknown_docs_witness :
    mapLookup DOCS_CONFIG "does-not-exist" = none ∧
    ((generateDocs demoRoot demoFS "does-not-exist" ["docs"]).outcome =
        .exited 1 ∧
      (1 : Nat) ≠ 0 ∧
      (generateDocs demoRoot demoFS "does-not-exist" ["docs"]).fs = demoFS ∧
      (generateDocs demoRoot demoFS "does-not-exist" ["docs"]).stderr =
        ["❌ Documentation config for \x27does-not-exist\x27 not found"]) :=
  ⟨by decide, c10_unknown_docs demoRoot demoFS "does-not-exist" ["docs"] (by decide)⟩

/-! ## Claim C6 (corrected). -/

/-- Claim C6 (counterexample): on the unknown identifier `does-not-exist`
the catalog listing is printed to standard output, not standard error — no
stderr line contains the identifier list, refuting "prints the full sorted
set of valid identifiers to standard error". -/
theorem c6_counterexample :
    (createExample demoRoot demoFS "does-not-exist" demoOut).outcome =
      .exited 1 ∧
    (createExample demoRoot demoFS "does-not-exist" demoOut).stderr.all
      (fun l => !(containsSubstr l "blind-auction, fhe-counter")) = true ∧
    (createExample demoRoot demoFS "does-not-exist" demoOut).stdout =
      ["Available examples: blind-auction, fhe-counter"] := by
  rw [createExample_unknown demoRoot demoFS "does-not-exist" demoOut (by decide)]
  refine ⟨rfl, by decide, by decide⟩

/-- Claim C6 (amended): an unknown identifier makes either materializer
print its diagnostic to standard error and the full identifier listing
(which happens to be in sorted order) to standard output, exit with status
1, and leave the filesystem untouched. -/
theorem c6_amended (root : Path) (fs0 : FS) (name : String) (out : Path) :
    (mapLookup EXAMPLES_MAP name = none →
      (createExample root fs0 name out).outcome = .exited 1 ∧
      (createExample root fs0 name out).fs = fs0 ∧
      (createExample root fs0 name out).stdout =
        ["Available examples: " ++
          String.intercalate ", " (EXAMPLES_MAP.map (fun e => e.1))] ∧
      (createExample root fs0 name out).stderr =
        ["❌ Example \x27" ++ name ++ "\x27 not found"]) ∧
    (mapLookup CATEGORIES name = none →
      (createCategory root fs0 name out).outcome = .exited 1 ∧
      (createCategory root fs0 name out).fs = fs0 ∧
      (createCategory root fs0 name out).stdout =
        ["Available categories: " ++
          String.intercalate ", " (CATEGORIES.map (fun e => e.1))] ∧
      (createCategory root fs0 name out).stderr =
        ["❌ Category \x27" ++ name ++ "\x27 not found"]) ∧
    List.Pairwise (fun a b => strLtB a b = true) (EXAMPLES_MAP.map (fun e => e.1)) ∧
    List.Pairwise (fun a b => strLtB a b = true) (CATEGORIES.map (fun e => e.1)) := by
  refine ⟨?_, ?_, by decide, by decide⟩
  · intro hmap
    rw [createExample_unknown root fs0 name out hmap]
    exact ⟨rfl, rfl, rfl, rfl⟩
  · intro hmap
    rw [createCategory_unknown root fs0 name out hmap]
    exact ⟨rfl, rfl, rfl, rfl⟩

/-- Witness for C6 (amended) at the unknown identifier `does-not-exist`. -/
theorem c6_amended_witness :
    mapLookup EXAMPLES_MAP "does-not-exist" = none ∧
    ((createExample demoRoot demoFS "does-not-exist" demoOut).outcome =
      .exited 1 ∧
     (createExample demoRoot demoFS "does-not-exist" demoOut).fs = demoFS ∧
     (createExample demoRoot demoFS "does-not-exist" demoOut).stdout =
       ["Available examples: " ++
         String.intercalate ", " (EXAMPLES_MAP.map (fun e => e.1))] ∧
     (createExample demoRoot demoFS "does-not-exist" demoOut).stderr =
       ["❌ Example \x27does-not-exist\x27 not found"]) :=
  ⟨by decide,
   (c6_amended demoRoot demoFS "does-not-exist" demoOut).1 (by decide)⟩

/-! ## Claim C4 (corrected). -/

/-- Claim C4 (counterexample): with the base template directory absent and
a fresh destination, the run is fatal but the destination directory HAS
been created — refuting "aborts before any mutation of the destination, in
particular before the destination directory is created". -/
theorem c4_counterexample :
    (createExample demoRoot demoFSnoTemplate "fhe-counter" demoOut).outcome =
      .fatal "cp: no match" ∧
    demoOut ∈ (createExample demoRoot demoFSnoTemplate "fhe-counter"
      demoOut).fs.dirs ∧
    demoFSnoTemplate.existsPath demoOut = false ∧
    demoOut ∉ demoFSnoTemplate.dirs := by
  refine ⟨?_, ?_, by decide, by decide⟩ <;>
    rw [createExample_no_template demoRoot demoFSnoTemplate "fhe-counter"
      { contract := ["basic", "FHECounter.sol"]
        test := ["basic", "FHECounter.ts"]
        description := "Simple encrypted counter demonstrating FHE basics"
        category := "basic" }
      demoOut (by decide) (by decide) (by decide) (by decide)] <;> decide

/-- Claim C4 (amended): with the base template directory absent, either
materializer dies with an uncaught copy error; no file is written or
modified, but the abort happens only after the destination directory has
been created. -/
theorem c4_amended (root : Path) (fs0 : FS) (name : String) (out : Path)
    (hfresh : fs0.existsPath out = false)
    (hne : out ≠ [])
    (h2 : prefixB root out = false)
    (hent : fs0.hasEntriesUnder (root ++ ["fhevm-hardhat-template"]) = false) :
    (∀ cfg, mapLookup EXAMPLES_MAP name = some cfg →
      (createExample root fs0 name out).outcome = .fatal "cp: no match" ∧
      (createExample root fs0 name out).fs.files = fs0.files ∧
      out ∈ (createExample root fs0 name out).fs.dirs) ∧
    (∀ cfg, mapLookup CATEGORIES name = some cfg →
      (createCategory root fs0 name out).outcome = .fatal "cp: no match" ∧
      (createCategory root fs0 name out).fs.files = fs0.files ∧
      out ∈ (createCategory root fs0 name out).fs.dirs) := by
  constructor
  · intro cfg hmap
    rw [createExample_no_template root fs0 name cfg out hmap hfresh h2 hent]
    exact ⟨rfl, rfl, fs0.mem_dirs_mkdirRec_self hne⟩
  · intro cfg hmap
    rw [createCategory_no_template root fs0 name cfg out hmap hfresh h2 hent]
    exact ⟨rfl, rfl, fs0.mem_dirs_mkdirRec_self hne⟩

/-- Witness for C4 (amended) on the concrete template-less tree. -/
theorem c4_amended_witness :
    (demoFSnoTemplate.existsPath demoOut = false ∧ demoOut ≠ [] ∧
     prefixB demoRoot demoOut = false ∧
     demoFSnoTemplate.hasEntriesUnder
       (demoRoot ++ ["fhevm-hardhat-template"]) = false ∧
     mapLookup EXAMPLES_MAP "fhe-counter" =
       some ({ contract := ["basic", "FHECounter.sol"]
               test := ["basic", "FHECounter.ts"]
               description := "Simple encrypted counter demonstrating FHE basics"
               category := "basic" } : ExampleConfig)) ∧
    ((createExample demoRoot demoFSnoTemplate "fhe-counter" demoOut).outcome =
      .fatal "cp: no match" ∧
     (createExample demoRoot demoFSnoTemplate "fhe-counter" demoOut).fs.files =
       demoFSnoTemplate.files ∧
     demoOut ∈ (createExample demoRoot demoFSnoTemplate "fhe-counter"
       demoOut).fs.dirs) :=
  ⟨⟨by decide, by decide, by decide, by decide, by decide⟩,
   (c4_amended demoRoot demoFSnoTemplate "fhe-counter" demoOut
     (by decide) (by decide) (by decide) (by decide)).1
     ({ contract := ["basic", "FHECounter.sol"]
        test := ["basic", "FHECounter.ts"]
        description := "Simple encrypted counter demonstrating FHE basics"
        category := "basic" } : ExampleConfig) (by decide)⟩

/-! ## Claim C1 (corrected). -/

/-- The catalog entry registered for `fhe-counter`. -/
def fheCounterConfig : ExampleConfig :=
  { contract := ["basic", "FHECounter.sol"]
    test := ["basic", "FHECounter.ts"]
    description := "Simple encrypted counter demonstrating FHE basics"
    category := "basic" }

/-- Claim C1 (counterexample): in a concrete well-formed materialization of
`fhe-counter` the written `README.md` does NOT contain the string
"FHE Counter" — the title is built by capitalizing the identifier, yielding
"Fhe-counter".  This refutes the claim's README conjunct as stated. -/
theorem c1_counterexample :
    (createExample demoRoot demoFS "fhe-counter" demoOut).fs.lookupFile
      (demoOut ++ ["README.md"]) =
      some (.text (generateReadme "fhe-counter" fheCounterConfig)) ∧
    containsSubstr (generateReadme "fhe-counter" fheCounterConfig)
      "FHE Counter" = false := by
  constructor
  · exact (createExample_known demoRoot demoFS "fhe-counter" fheCounterConfig
      demoOut demoManifest (by decide) (by decide) (by decide) (by decide)
      (by decide) (by decide) (by decide) (by decide)
      (fun _ => ⟨.text "contract FHECounter", by decide⟩)
      (fun _ => ⟨.text "counter tests", by decide⟩)).2.2.2.2.2.2.2.2.2.1
  · decide

/-- Claim C1 (amended): materializing `fhe-counter` into a fresh directory
(with the registered catalog entry, an intact template and both artifact
sources) succeeds and yields `contracts/FHECounter.sol`, `test/FHECounter.ts`,
a `README.md` whose text contains "Fhe-counter" (the capitalized identifier;
not "FHE Counter"), and a `package.json` whose name is
"fhevm-fhe-counter". -/
theorem c1_amended (root : Path) (fs0 : FS) (out : Path) (m : Manifest)
    (csol cts : Content)
    (hfresh : fs0.existsPath out = false)
    (hne : out ≠ [])
    (h1 : prefixB out root = false) (h2 : prefixB root out = false)
    (hpkg : fs0.lookupFile (root ++ ["fhevm-hardhat-template", "package.json"]) =
      some (.manifest m))
    (hcdir : root ++ ["fhevm-hardhat-template", "contracts"] ∈ fs0.dirs)
    (htdir : root ++ ["fhevm-hardhat-template", "test"] ∈ fs0.dirs)
    (hcsrc : fs0.lookupFile (root ++ ["contracts"] ++ ["basic", "FHECounter.sol"]) =
      some csol)
    (htsrc : fs0.lookupFile (root ++ ["test"] ++ ["basic", "FHECounter.ts"]) =
      some cts) :
    (createExample root fs0 "fhe-counter" out).outcome = .ok ∧
    ((createExample root fs0 "fhe-counter" out).fs.lookupFile
      (out ++ ["contracts"] ++ ["FHECounter.sol"])).isSome = true ∧
    ((createExample root fs0 "fhe-counter" out).fs.lookupFile
      (out ++ ["test"] ++ ["FHECounter.ts"])).isSome = true ∧
    (createExample root fs0 "fhe-counter" out).fs.lookupFile
      (out ++ ["README.md"]) =
      some (.text (generateReadme "fhe-counter" fheCounterConfig)) ∧
    containsSubstr (generateReadme "fhe-counter" fheCounterConfig)
      "Fhe-counter" = true ∧
    containsSubstr (generateReadme "fhe-counter" fheCounterConfig)
      "FHE Counter" = false ∧
    (∃ m', (createExample root fs0 "fhe-counter" out).fs.lookupFile
        (out ++ ["package.json"]) = some (.manifest m') ∧
      m'.name = "fhevm-fhe-counter") := by
  obtain ⟨ho, hs, hstd, hcd, htd, hsomeC, hsomeT, hmiss, hmissT, hread, hpkgf⟩ :=
    createExample_known root fs0 "fhe-counter" fheCounterConfig out m
      (by decide) hfresh hne h1 h2 hpkg hcdir htdir
      (fun _ => ⟨csol, hcsrc⟩) (fun _ => ⟨cts, htsrc⟩)
  refine ⟨ho, ?_, ?_, hread, by decide, by decide, ⟨_, hpkgf, rfl⟩⟩
  · exact hsomeC (FS.existsPath_of_lookup hcsrc)
  · exact hsomeT (FS.existsPath_of_lookup htsrc)

/-- Witness for C1 (amended) on the concrete repository fixture. -/
theorem c1_witness :
    (demoFS.existsPath demoOut = false ∧ demoOut ≠ [] ∧
     prefixB demoOut demoRoot = false ∧ prefixB demoRoot demoOut = false ∧
     demoFS.lookupFile
       (demoRoot ++ ["fhevm-hardhat-template", "package.json"]) =
       some (.manifest demoManifest) ∧
     demoFS.lookupFile (demoRoot ++ ["contracts"] ++ ["basic", "FHECounter.sol"]) =
       some (.text "contract FHECounter") ∧
     demoFS.lookupFile (demoRoot ++ ["test"] ++ ["basic", "FHECounter.ts"]) =
       some (.text "counter tests")) ∧
    (createExample demoRoot demoFS "fhe-counter" demoOut).outcome = .ok :=
  ⟨⟨by decide, by decide, by decide, by decide, by decide, by decide, by decide⟩,
   (c1_amended demoRoot demoFS demoOut demoManifest
     (.text "contract FHECounter") (.text "counter tests")
     (by decide) (by decide) (by decide) (by decide) (by decide) (by decide)
     (by decide) (by decide) (by decide)).1⟩

/-! ## Claim C2. -/

/-- Order-preserving deduplication keeping first occurrences.  This is the
construction the spec describes for the keyword list ("fixed domain tags
followed by the category tag, deduplicated, order-preserving"); the claim
compares it against the list the scripts actually write. -/
def dedupKeepFirstAux (seen : List String) : List String → List String
  | [] => []
  | x :: xs =>
      if seen.contains x then dedupKeepFirstAux seen xs
      else x :: dedupKeepFirstAux (x :: seen) xs

/-- Entry point of the order-preserving deduplication. -/
def dedupKeepFirst (l : List String) : List String := dedupKeepFirstAux [] l

/-- The `CATEGORIES` entry registered for `basic`. -/
def basicCategoryConfig : CategoryConfig :=
  { description := "Fundamental FHE operations and patterns"
    examples := ["fhe-counter", "encrypt-single-value"]
    contracts := [["basic", "FHECounter.sol"]]
    tests := [["basic", "FHECounter.ts"]] }

/-- The `DOCS_CONFIG` entry registered for `fhe-counter`. -/
def fheCounterDocConfig : DocConfig :=
  { title := "FHE Counter"
    description := "Simple encrypted counter demonstrating basic FHE operations"
    category := "Basic Examples"
    concepts := ["Encrypted state", "FHE arithmetic", "Permission management"] }

/-- Claim C2: materializing any known example identifier into a fresh
directory rewrites the manifest so that `name` is the slug
`fhevm-<identifier>` (`fhevm-<identifier>-examples` for a category
identifier), `description` is the entry's description, and the keyword
list is the fixed domain tags followed by the entry's category tag,
deduplicated order-preservingly — in particular the category tag occurs
exactly once. -/
theorem c2_manifest_rewrite (root : Path) (fs0 : FS) (name : String)
    (out : Path) (m : Manifest)
    (hfresh : fs0.existsPath out = false)
    (hne : out ≠ [])
    (h1 : prefixB out root = false) (h2 : prefixB root out = false)
    (hpkg : fs0.lookupFile (root ++ ["fhevm-hardhat-template", "package.json"]) =
      some (.manifest m))
    (hcdir : root ++ ["fhevm-hardhat-template", "contracts"] ∈ fs0.dirs)
    (htdir : root ++ ["fhevm-hardhat-template", "test"] ∈ fs0.dirs) :
    (∀ cfg, mapLookup EXAMPLES_MAP name = some cfg →
      (fs0.existsPath (root ++ ["contracts"] ++ cfg.contract) = true →
        ∃ c, fs0.lookupFile (root ++ ["contracts"] ++ cfg.contract) = some c) →
      (fs0.existsPath (root ++ ["test"] ++ cfg.test) = true →
        ∃ c, fs0.lookupFile (root ++ ["test"] ++ cfg.test) = some c) →
      ∃ m', (createExample root fs0 name out).fs.lookupFile
          (out ++ ["package.json"]) = some (.manifest m') ∧
        m'.name = "fhevm-" ++ name ∧
        m'.description = cfg.description ∧
        m'.keywords = dedupKeepFirst
          (["fhevm", "zama", "fhe", "privacy", "blockchain"] ++ [cfg.category]) ∧
        m'.keywords.count cfg.category = 1) ∧
    (∀ cfg, mapLookup CATEGORIES name = some cfg →
      (∀ rel ∈ cfg.contracts,
        fs0.existsPath (root ++ ["contracts"] ++ rel) = true →
        ∃ c, fs0.lookupFile (root ++ ["contracts"] ++ rel) = some c) →
      (∀ rel ∈ cfg.tests,
        fs0.existsPath (root ++ ["test"] ++ rel) = true →
        ∃ c, fs0.lookupFile (root ++ ["test"] ++ rel) = some c) →
      ∃ m', (createCategory root fs0 name out).fs.lookupFile
          (out ++ ["package.json"]) = some (.manifest m') ∧
        m'.name = "fhevm-" ++ name ++ "-examples" ∧
        m'.description = cfg.description ∧
        m'.keywords = dedupKeepFirst
          (["fhevm", "zama", "fhe", "privacy", "blockchain"] ++
            [name, "examples"]) ∧
        m'.keywords.count name = 1) := by
  constructor
  · intro cfg hmap hcart htart
    obtain ⟨-, -, -, -, -, -, -, -, -, -, hpkgf⟩ :=
      createExample_known root fs0 name cfg out m hmap hfresh hne h1 h2 hpkg
        hcdir htdir hcart htart
    refine ⟨_, hpkgf, rfl, rfl, ?_, ?_⟩
    · rcases mapLookup_two _ _ _ _ hmap with ⟨rfl, rfl⟩ | ⟨rfl, rfl⟩ <;> rfl
    · rcases mapLookup_two _ _ _ _ hmap with ⟨rfl, rfl⟩ | ⟨rfl, rfl⟩ <;> rfl
  · intro cfg hmap hcarts htarts
    obtain ⟨-, -, -, -, -, -, hpkgf, -, -⟩ :=
      createCategory_known root fs0 name cfg out m hmap hfresh hne h1 h2 hpkg
        hcdir htdir hcarts htarts
    refine ⟨_, hpkgf, rfl, rfl, ?_, ?_⟩
    · rcases mapLookup_two _ _ _ _ hmap with ⟨rfl, rfl⟩ | ⟨rfl, rfl⟩ <;> rfl
    · rcases mapLookup_two _ _ _ _ hmap with ⟨rfl, rfl⟩ | ⟨rfl, rfl⟩ <;> rfl

/-- Witness for C2 on the concrete repository fixture, for both the
`fhe-counter` example and the `basic` category. -/
theorem c2_witness :
    (∃ m', (createExample demoRoot demoFS "fhe-counter" demoOut).fs.lookupFile
        (demoOut ++ ["package.json"]) = some (.manifest m') ∧
      m'.name = "fhevm-" ++ "fhe-counter" ∧
      m'.description = fheCounterConfig.description ∧
      m'.keywords = dedupKeepFirst
        (["fhevm", "zama", "fhe", "privacy", "blockchain"] ++
          [fheCounterConfig.category]) ∧
      m'.keywords.count fheCounterConfig.category = 1) ∧
    (∃ m', (createCategory demoRoot demoFS "basic" demoOut).fs.lookupFile
        (demoOut ++ ["package.json"]) = some (.manifest m') ∧
      m'.name = "fhevm-" ++ "basic" ++ "-examples" ∧
      m'.description = basicCategoryConfig.description ∧
      m'.keywords = dedupKeepFirst
        (["fhevm", "zama", "fhe", "privacy", "blockchain"] ++
          ["basic", "examples"]) ∧
      m'.keywords.count "basic" = 1) :=
  ⟨(c2_manifest_rewrite demoRoot demoFS "fhe-counter" demoOut demoManifest
      (by decide) (by decide) (by decide) (by decide) (by decide) (by decide)
      (by decide)).1 fheCounterConfig (by decide)
      (fun _ => ⟨.text "contract FHECounter", by decide⟩)
      (fun _ => ⟨.text "counter tests", by decide⟩),
   (c2_manifest_rewrite demoRoot demoFS "basic" demoOut demoManifest
      (by decide) (by decide) (by decide) (by decide) (by decide) (by decide)
      (by decide)).2 basicCategoryConfig (by decide)
      (fun rel hrel _ => by
        have hr : rel = ["basic", "FHECounter.sol"] := by
          simpa [basicCategoryConfig] using hrel
        subst hr
        exact ⟨.text "contract FHECounter", by decide⟩)
      (fun rel hrel _ => by
        have hr : rel = ["basic", "FHECounter.ts"] := by
          simpa [basicCategoryConfig] using hrel
        subst hr
        exact ⟨.text "counter tests", by decide⟩)⟩

/-! ## Claim C3 (corrected). -/

/-- Number of positions at which the (nonempty) pattern occurs in the
character list. -/
def countOccsChars (pat : List Char) : List Char → Nat
  | [] => 0
  | c :: rest =>
      (if List.isPrefixOf pat (c :: rest) then 1 else 0) + countOccsChars pat rest

/-- Number of occurrences of `pat` in `s`, as positions where it starts. -/
def countOccs (s pat : String) : Nat := countOccsChars pat.data s.data

/-- Shared engine for C5: both doc-generation runs on a known identifier,
from a fresh output directory, with the string-level side conditions
supplied per catalog entry. -/
theorem docs_idem_aux (root : Path) (fs0 : FS) (name : String)
    (cfg : DocConfig) (out : Path)
    (hmap : mapLookup DOCS_CONFIG name = some cfg)
    (hdocname : (name ++ ".md") ≠ "SUMMARY.md")
    (hskel : containsSubstr summarySkeleton (entryLineFor name cfg) = false)
    (hcont : containsSubstr (summarySkeleton ++ entryLineFor name cfg ++ "\n")
      (entryLineFor name cfg) = true)
    (hcount : countOccs (summarySkeleton ++ entryLineFor name cfg ++ "\n")
      (entryLineFor name cfg) = 1)
    (hfresh : fs0.existsPath out = false)
    (hne : out ≠ [])
    (h1 : prefixB out root = false) (h2 : prefixB root out = false)
    (hsum : fs0.existsPath (out ++ ["SUMMARY.md"]) = false) :
    ∃ D S,
      (generateDocs root fs0 name out).outcome = .ok ∧
      (generateDocs root fs0 name out).fs.lookupFile (out ++ [name ++ ".md"]) =
        some (.text D) ∧
      (generateDocs root (generateDocs root fs0 name out).fs name out).outcome =
        .ok ∧
      (generateDocs root (generateDocs root fs0 name out).fs name
        out).fs.lookupFile (out ++ [name ++ ".md"]) = some (.text D) ∧
      (generateDocs root (generateDocs root fs0 name out).fs name
        out).fs.lookupFile (out ++ ["SUMMARY.md"]) = some (.text S) ∧
      countOccs S (entryLineFor name cfg) = 1 := by
  have hr1 := generateDocs_known_fresh root fs0 name cfg out hmap hfresh hne
    hdocname hsum
  have hS0 : (if containsSubstr summarySkeleton (entryLineFor name cfg) = true
      then summarySkeleton
      else summarySkeleton ++ entryLineFor name cfg ++ "\n") =
      summarySkeleton ++ entryLineFor name cfg ++ "\n" := by
    rw [hskel]; simp
  have hdq : (out ++ ["SUMMARY.md"]) ≠ out ++ [name ++ ".md"] := by
    apply append_ne_append
    intro hc
    injection hc with hh1 hh2
    exact hdocname hh1.symm
  have hdq' : (out ++ [name ++ ".md"]) ≠ out ++ ["SUMMARY.md"] := fun hc =>
    hdq hc.symm
  have houtdir : out ∈ (generateDocs root fs0 name out).fs.dirs := by
    rw [hr1]
    exact fs0.mem_dirs_mkdirRec_self hne
  have hsum1 : (generateDocs root fs0 name out).fs.lookupFile
      (out ++ ["SUMMARY.md"]) =
      some (.text (summarySkeleton ++ entryLineFor name cfg ++ "\n")) := by
    rw [hr1]
    show ((((fs0.mkdirRec out).writeFile (out ++ [name ++ ".md"])
        (.text (generateMarkdownDoc root (fs0.mkdirRec out) name
          cfg))).writeFile (out ++ ["SUMMARY.md"]) _).lookupFile
        (out ++ ["SUMMARY.md"])) = _
    rw [FS.lookupFile_writeFile_self, hS0]
  have hr2 := generateDocs_known_existing root
    (generateDocs root fs0 name out).fs name cfg out
    (summarySkeleton ++ entryLineFor name cfg ++ "\n") hmap houtdir
    hdocname hsum1 hcont
  have hx : OutExt out (fs0.mkdirRec out) (generateDocs root fs0 name out).fs := by
    rw [hr1]
    exact (OutExt.base.write_out [name ++ ".md"] (by simp) _).write_out
      ["SUMMARY.md"] (by simp) _
  have hCpre : root <+: getContractPath root name :=
    ⟨(mapLookup docContractMap name).getD [], rfl⟩
  have hTpre : root <+: getTestPath root name :=
    ⟨(mapLookup docTestMap name).getD [], rfl⟩
  have hD : generateMarkdownDoc root (generateDocs root fs0 name out).fs
      name cfg = generateMarkdownDoc root (fs0.mkdirRec out) name cfg :=
    generateMarkdownDoc_congr root _ _ name cfg
      (hx.existsPath_root_side h1 h2 hCpre)
      (hx.lookup_root_side h1 h2 hCpre)
      (hx.existsPath_root_side h1 h2 hTpre)
      (hx.lookup_root_side h1 h2 hTpre)
  refine ⟨generateMarkdownDoc root (fs0.mkdirRec out) name cfg,
    summarySkeleton ++ entryLineFor name cfg ++ "\n", ?_, ?_, ?_, ?_, ?_, hcount⟩
  · rw [hr1]
  · rw [hr1]
    show ((((fs0.mkdirRec out).writeFile (out ++ [name ++ ".md"])
        (.text (generateMarkdownDoc root (fs0.mkdirRec out) name
          cfg))).writeFile (out ++ ["SUMMARY.md"]) _).lookupFile
        (out ++ [name ++ ".md"])) = _
    rw [FS.lookupFile_writeFile_ne _ _ hdq', FS.lookupFile_writeFile_self]
  · rw [hr2]
  · rw [hr2]
    rw [FS.lookupFile_writeFile_ne _ _ hdq', FS.lookupFile_writeFile_self, hD]
  · rw [hr2]
    rw [FS.lookupFile_writeFile_self]

/-- Claim C5: for every known example identifier, running doc generation
twice (starting from a fresh output directory) succeeds both times, the
per-identifier document written by the second run is byte-identical to the
first run's, and the final index document contains exactly one entry line
for that identifier. -/
theorem c5_docs_idempotent (root : Path) (fs0 : FS) (name : String)
    (cfg : DocConfig) (out : Path)
    (hmap : mapLookup DOCS_CONFIG name = some cfg)
    (hfresh : fs0.existsPath out = false)
    (hne : out ≠ [])
    (h1 : prefixB out root = false) (h2 : prefixB root out = false)
    (hsum : fs0.existsPath (out ++ ["SUMMARY.md"]) = false) :
    ∃ D S,
      (generateDocs root fs0 name out).outcome = .ok ∧
      (generateDocs root fs0 name out).fs.lookupFile (out ++ [name ++ ".md"]) =
        some (.text D) ∧
      (generateDocs root (generateDocs root fs0 name out).fs name out).outcome =
        .ok ∧
      (generateDocs root (generateDocs root fs0 name out).fs name
        out).fs.lookupFile (out ++ [name ++ ".md"]) = some (.text D) ∧
      (generateDocs root (generateDocs root fs0 name out).fs name
        out).fs.lookupFile (out ++ ["SUMMARY.md"]) = some (.text S) ∧
      countOccs S (entryLineFor name cfg) = 1 := by
  rcases mapLookup_two _ _ _ _ hmap with ⟨rfl, rfl⟩ | ⟨rfl, rfl⟩
  · exact docs_idem_aux root fs0 _ _ out (by decide) (by decide) (by decide)
      (by decide) (by decide) hfresh hne h1 h2 hsum
  · exact docs_idem_aux root fs0 _ _ out (by decide) (by decide) (by decide)
      (by decide) (by decide) hfresh hne h1 h2 hsum

/-- Witness for C5 at `fhe-counter` on the concrete repository fixture. -/
theorem c5_witness :
    (demoFS.existsPath ["docs"] = false ∧
     prefixB ["docs"] demoRoot = false ∧ prefixB demoRoot ["docs"] = false ∧
     demoFS.existsPath (["docs"] ++ ["SUMMARY.md"]) = false) ∧
    (∃ D S,
      (generateDocs demoRoot demoFS "fhe-counter" ["docs"]).outcome = .ok ∧
      (generateDocs demoRoot demoFS "fhe-counter" ["docs"]).fs.lookupFile
        (["docs"] ++ ["fhe-counter" ++ ".md"]) = some (.text D) ∧
      (generateDocs demoRoot
        (generateDocs demoRoot demoFS "fhe-counter" ["docs"]).fs "fhe-counter"
        ["docs"]).outcome = .ok ∧
      (generateDocs demoRoot
        (generateDocs demoRoot demoFS "fhe-counter" ["docs"]).fs "fhe-counter"
        ["docs"]).fs.lookupFile (["docs"] ++ ["fhe-counter" ++ ".md"]) =
        some (.text D) ∧
      (generateDocs demoRoot
        (generateDocs demoRoot demoFS "fhe-counter" ["docs"]).fs "fhe-counter"
        ["docs"]).fs.lookupFile (["docs"] ++ ["SUMMARY.md"]) =
        some (.text S) ∧
      countOccs S (entryLineFor "fhe-counter" fheCounterDocConfig) = 1) :=
  ⟨⟨by decide, by decide, by decide, by decide⟩,
   c5_docs_idempotent demoRoot demoFS "fhe-counter" fheCounterDocConfig
     ["docs"] (by decide) (by decide) (by decide) (by decide) (by decide)
     (by decide)⟩

/-! ## Claim C7. -/

/-- Claim C7: materializing any known identifier (example or category)
into a destination leaves every file whose path is outside the
corresponding write set unchanged in presence and content, and never
deletes any pre-existing file. -/
theorem c7_frame (root : Path) (fs0 : FS) (name : String) (out : Path) :
    (∀ cfg, mapLookup EXAMPLES_MAP name = some cfg →
      (∀ q, q ∉ exampleWriteSet root fs0 cfg out →
        (createExample root fs0 name out).fs.lookupFile q =
          fs0.lookupFile q) ∧
      ∀ q, (fs0.lookupFile q).isSome = true →
        ((createExample root fs0 name out).fs.lookupFile q).isSome = true) ∧
    (∀ cfg, mapLookup CATEGORIES name = some cfg →
      (∀ q, q ∉ categoryWriteSet root fs0 cfg out →
        (createCategory root fs0 name out).fs.lookupFile q =
          fs0.lookupFile q) ∧
      ∀ q, (fs0.lookupFile q).isSome = true →
        ((createCategory root fs0 name out).fs.lookupFile q).isSome = true) := by
  constructor
  · intro cfg hmap
    have hw := createExample_writes root fs0 name cfg out hmap
    exact ⟨fun q hq => hw.lookup_frame hq,
           fun q hq => FS.lookup_isSome_of_suffix hw.files_keep hq⟩
  · intro cfg hmap
    have hw := createCategory_writes root fs0 name cfg out hmap
    exact ⟨fun q hq => hw.lookup_frame hq,
           fun q hq => FS.lookup_isSome_of_suffix hw.files_keep hq⟩

/-- Witness for C7: the unrelated pre-existing file `sandbox/junk.txt` of
the fixture is outside both write sets and survives both scripts with its
content intact. -/
theorem c7_witness :
    (["sandbox", "junk.txt"] ∉
       exampleWriteSet demoRoot demoFS fheCounterConfig demoOut ∧
     (createExample demoRoot demoFS "fhe-counter" demoOut).fs.lookupFile
       ["sandbox", "junk.txt"] = demoFS.lookupFile ["sandbox", "junk.txt"]) ∧
    (["sandbox", "junk.txt"] ∉
       categoryWriteSet demoRoot demoFS basicCategoryConfig demoOut ∧
     (createCategory demoRoot demoFS "basic" demoOut).fs.lookupFile
       ["sandbox", "junk.txt"] = demoFS.lookupFile ["sandbox", "junk.txt"]) := by
  have hE := ((c7_frame demoRoot demoFS "fhe-counter" demoOut).1
    fheCounterConfig (by decide)).1 ["sandbox", "junk.txt"] (by decide)
  have hC := ((c7_frame demoRoot demoFS "basic" demoOut).2
    basicCategoryConfig (by decide)).1 ["sandbox", "junk.txt"] (by decide)
  exact ⟨⟨by decide, hE⟩, ⟨by decide, hC⟩⟩

/-! ## Claim C8. -/

/-- Claim C8: for a known example identifier one of whose artifact source
files (contract or test) is missing on disk, doc emission still succeeds,
and the emitted document is the fixed rendering with the empty string
embedded as that artifact's listing — the fenced section is present but
empty. -/
theorem c8_missing_artifact_doc (root : Path) (fs0 : FS) (name : String)
    (cfg : DocConfig) (out : Path)
    (hmap : mapLookup DOCS_CONFIG name = some cfg)
    (hfresh : fs0.existsPath out = false)
    (hne : out ≠ [])
    (h2 : prefixB root out = false)
    (hsum : fs0.existsPath (out ++ ["SUMMARY.md"]) = false) :
    (fs0.existsPath (getContractPath root name) = false →
      (generateDocs root fs0 name out).outcome = .ok ∧
      ∃ t, (generateDocs root fs0 name out).fs.lookupFile
        (out ++ [name ++ ".md"]) = some (.text (mdRender cfg "" t))) ∧
    (fs0.existsPath (getTestPath root name) = false →
      (generateDocs root fs0 name out).outcome = .ok ∧
      ∃ c, (generateDocs root fs0 name out).fs.lookupFile
        (out ++ [name ++ ".md"]) = some (.text (mdRender cfg c ""))) := by
  have hdocname : (name ++ ".md") ≠ "SUMMARY.md" := by
    rcases mapLookup_two _ _ _ _ hmap with ⟨rfl, -⟩ | ⟨rfl, -⟩ <;> decide
  have hr1 := generateDocs_known_fresh root fs0 name cfg out hmap hfresh hne
    hdocname hsum
  have hdq' : (out ++ [name ++ ".md"]) ≠ out ++ ["SUMMARY.md"] := by
    apply append_ne_append
    intro hc
    injection hc with hh1 hh2
    exact hdocname hh1
  have hlook : (generateDocs root fs0 name out).fs.lookupFile
      (out ++ [name ++ ".md"]) =
      some (.text (generateMarkdownDoc root (fs0.mkdirRec out) name cfg)) := by
    rw [hr1]
    show ((((fs0.mkdirRec out).writeFile (out ++ [name ++ ".md"])
        (.text (generateMarkdownDoc root (fs0.mkdirRec out) name
          cfg))).writeFile (out ++ ["SUMMARY.md"]) _).lookupFile
        (out ++ [name ++ ".md"])) = _
    rw [FS.lookupFile_writeFile_ne _ _ hdq', FS.lookupFile_writeFile_self]
  constructor
  · intro hCmiss
    have hnotpre : getContractPath root name ∉ prefixesOf out := by
      intro hc
      have hpre : getContractPath root name <+: out := (of_mem_prefixesOf hc).2
      have hroot : root <+: out :=
        List.IsPrefix.trans ⟨(mapLookup docContractMap name).getD [], rfl⟩ hpre
      rw [← prefixB_iff] at hroot
      rw [hroot] at h2
      exact Bool.noConfusion h2
    have hCe : (fs0.mkdirRec out).existsPath (getContractPath root name) =
        false := by
      rw [FS.existsPath_mkdirRec_eq hnotpre]
      exact hCmiss
    have hD : generateMarkdownDoc root (fs0.mkdirRec out) name cfg =
        mdRender cfg ""
          (if (fs0.mkdirRec out).existsPath (getTestPath root name) = true
           then readTextD
             ((fs0.mkdirRec out).lookupFile (getTestPath root name))
           else "") := by
      simp only [generateMarkdownDoc, hCe, Bool.false_eq_true, if_false]
    have hlook2 := hlook
    rw [hD] at hlook2
    exact ⟨by rw [hr1], _, hlook2⟩
  · intro hTmiss
    have hnotpre : getTestPath root name ∉ prefixesOf out := by
      intro hc
      have hpre : getTestPath root name <+: out := (of_mem_prefixesOf hc).2
      have hroot : root <+: out :=
        List.IsPrefix.trans ⟨(mapLookup docTestMap name).getD [], rfl⟩ hpre
      rw [← prefixB_iff] at hroot
      rw [hroot] at h2
      exact Bool.noConfusion h2
    have hTe : (fs0.mkdirRec out).existsPath (getTestPath root name) =
        false := by
      rw [FS.existsPath_mkdirRec_eq hnotpre]
      exact hTmiss
    have hD : generateMarkdownDoc root (fs0.mkdirRec out) name cfg =
        mdRender cfg
          (if (fs0.mkdirRec out).existsPath (getContractPath root name) = true
           then readTextD
             ((fs0.mkdirRec out).lookupFile (getContractPath root name))
           else "") "" := by
      simp only [generateMarkdownDoc, hTe, Bool.false_eq_true, if_false]
    have hlook2 := hlook
    rw [hD] at hlook2
    exact ⟨by rw [hr1], _, hlook2⟩

/-- Witness for C8 on the deleted-contract and deleted-test fixtures at
`fhe-counter`. -/
theorem c8_witness :
    (demoFSnoContract.existsPath (getContractPath demoRoot "fhe-counter") =
       false ∧
     (generateDocs demoRoot demoFSnoContract "fhe-counter" ["docs"]).outcome =
       .ok ∧
     ∃ t, (generateDocs demoRoot demoFSnoContract "fhe-counter"
       ["docs"]).fs.lookupFile (["docs"] ++ ["fhe-counter" ++ ".md"]) =
       some (.text (mdRender fheCounterDocConfig "" t))) ∧
    (demoFSnoTest.existsPath (getTestPath demoRoot "fhe-counter") = false ∧
     (generateDocs demoRoot demoFSnoTest "fhe-counter" ["docs"]).outcome =
       .ok ∧
     ∃ c, (generateDocs demoRoot demoFSnoTest "fhe-counter"
       ["docs"]).fs.lookupFile (["docs"] ++ ["fhe-counter" ++ ".md"]) =
       some (.text (mdRender fheCounterDocConfig c ""))) := by
  have hA := (c8_missing_artifact_doc demoRoot demoFSnoContract "fhe-counter"
    fheCounterDocConfig ["docs"] (by decide) (by decide) (by decide)
    (by decide) (by decide)).1 (by decide)
  have hB := (c8_missing_artifact_doc demoRoot demoFSnoTest "fhe-counter"
    fheCounterDocConfig ["docs"] (by decide) (by decide) (by decide)
    (by decide) (by decide)).2 (by decide)
  exact ⟨⟨by decide, hA.1, hA.2⟩, ⟨by decide, hB.1, hB.2⟩⟩

/-! ## Claim C9 (corrected). -/

/-- Claim C9 (counterexample): `encrypt-single-value` is listed in the
`basic` category and absent from the example catalog, yet it is NOT
rendered with the fallback description "FHEVM example": the description
table inside `getExampleDescription` has an entry for it, so the category
README shows "Basic FHE encryption patterns". -/
theorem c9_counterexample :
    mapLookup CATEGORIES "basic" = some basicCategoryConfig ∧
    "encrypt-single-value" ∈ basicCategoryConfig.examples ∧
    mapLookup EXAMPLES_MAP "encrypt-single-value" = none ∧
    getExampleDescription "encrypt-single-value" =
      "Basic FHE encryption patterns" ∧
    getExampleDescription "encrypt-single-value" ≠ "FHEVM example" ∧
    containsSubstr (generateCategoryReadme "basic" basicCategoryConfig)
      "- **encrypt-single-value** - Basic FHE encryption patterns" = true ∧
    containsSubstr (generateCategoryReadme "basic" basicCategoryConfig)
      "- **encrypt-single-value** - FHEVM example" = false :=
  ⟨by decide, by decide, by decide, by decide, by decide, by decide, by decide⟩

/-- Claim C9 (amended): for every category entry the generated README
contains the bullet block with one line per identifier in the category's
examples list, in list order, each described by the description table of
`getExampleDescription`; the fallback "FHEVM example" is used exactly for
identifiers absent from that description table (membership in the example
catalog is irrelevant). -/
theorem c9_amended (name : String) (cfg : CategoryConfig)
    (hmap : mapLookup CATEGORIES name = some cfg) :
    containsSubstr (generateCategoryReadme name cfg)
      (String.intercalate "\n" (cfg.examples.map
        (fun e => "- **" ++ e ++ "** - " ++ getExampleDescription e))) =
      true ∧
    (∀ e, mapLookup exampleDescriptions e = none →
      getExampleDescription e = "FHEVM example") := by
  constructor
  · rcases mapLookup_two _ _ _ _ hmap with ⟨rfl, rfl⟩ | ⟨rfl, rfl⟩ <;> decide
  · intro e he
    unfold getExampleDescription
    rw [he]
    rfl

/-- Witness for C9 (amended) at the `basic` category. -/
theorem c9_amended_witness :
    mapLookup CATEGORIES "basic" = some basicCategoryConfig ∧
    containsSubstr (generateCategoryReadme "basic" basicCategoryConfig)
      (String.intercalate "\n" (basicCategoryConfig.examples.map
        (fun e => "- **" ++ e ++ "** - " ++ getExampleDescription e))) =
      true :=
  ⟨by decide, (c9_amended "basic" basicCategoryConfig (by decide)).1⟩

end Scaffold















